import Mathlib

/-! # Task dispatch, process backend and managed-daemon installer

A shallow embedding of

* `agent/engine/task_engine_wrapper.go` (the dispatcher `taskEngineWrapper`),
* `agent/engine/process_task_engine_windows.go` (the backend `processTaskEngine`),
* `agent/engine/daemonmanager/daemon_manager_windows.go` (the installer `daemonManager`),

followed by the properties proved about them.

Conventions of the embedding.

* Go pointers to tasks are modelled by the task value; a nil entry of a slice of
  pointers is `none`.
* A Go call that can panic returns an `Outcome`; a Go `(value, error)` pair stays a
  pair, the error being `Option Error` (`none` is Go's `nil`).
* A nil slice and an empty slice are both the empty list.
* A value of interface type `TaskEngine` is a record of methods over a state type.
-/

namespace Go

/-- Go's `error`, reduced to its message. -/
abbrev Error := String

/-- Result of a Go call that may panic instead of returning. -/
inductive Outcome (α : Type) where
  | returned (a : α)
  | panicked (msg : String)
  deriving DecidableEq, Repr

/-- Sequencing of calls: a panic propagates to the caller. -/
def Outcome.andThen {α β : Type} : Outcome α → (α → Outcome β) → Outcome β
  | .returned a, f => f a
  | .panicked m, _ => .panicked m

end Go

namespace Engine

open Go

/-- Modelled from the spec: the declaration of `container.ContainerType` is not among the
sources.  The spec describes a type tag distinguishing ordinary containers from managed
daemons; every other tag value is `other n`. -/
inductive ContainerType where
  | ContainerNormal
  | ContainerManagedDaemon
  | other (code : Nat)
  deriving DecidableEq, Repr

/-- The field of `apicontainer.Container` that the engine code reads: `Type`, written
`Type_` because `Type` is reserved. -/
structure Container where
  Type_ : ContainerType
  deriving DecidableEq, Repr

/-- The fields of `apitask.Task` that the engine code reads.  `Containers` is a slice of
pointers, so an entry may be nil.  `ebsTaskAttach` is the answer of
`IsEBSTaskAttachEnabled()`. -/
structure Task where
  Arn : String
  Containers : List (Option Container)
  ebsTaskAttach : Bool
  deriving DecidableEq, Repr

/-- The method `task.IsEBSTaskAttachEnabled()`. -/
def Task.IsEBSTaskAttachEnabled (task : Task) : Bool := task.ebsTaskAttach

/-- The Go expression
`len(task.Containers) == 1 && task.Containers[0].Type == container.ContainerManagedDaemon`.
The right operand is evaluated only when the left one holds; it panics when the
single entry is a nil pointer. -/
def managedDaemonCheck (task : Task) : Outcome Bool :=
  if task.Containers.length == 1 then
    match task.Containers.head? with
    | some (some c) => .returned (c.Type_ == ContainerType.ContainerManagedDaemon)
    | _ => .panicked "invalid memory address or nil pointer dereference"
  else .returned false

/-- The managed-daemon predicate of the data model: exactly one container, whose type
tag is `ContainerManagedDaemon`. -/
def IsManagedDaemonTask (task : Task) : Prop :=
  ∃ c : Container, task.Containers = [some c] ∧ c.Type_ = ContainerType.ContainerManagedDaemon

instance (task : Task) : Decidable (IsManagedDaemonTask task) :=
  match h : task.Containers with
  | [some c] =>
    if hc : c.Type_ = ContainerType.ContainerManagedDaemon then
      isTrue ⟨c, h, hc⟩
    else
      isFalse (fun ⟨c', h', hc'⟩ => by
        rw [h] at h'
        simp only [List.cons.injEq, Option.some.injEq, and_true] at h'
        subst h'
        exact hc hc')
  | [] => isFalse (fun ⟨_, h', _⟩ => by rw [h] at h'; simp at h')
  | [none] => isFalse (fun ⟨_, h', _⟩ => by rw [h] at h'; simp at h')
  | _ :: _ :: _ => isFalse (fun ⟨_, h', _⟩ => by rw [h] at h'; simp at h')

/-- The methods of the Go interface `TaskEngine` that the properties below talk about, for
an implementation whose state has type `σ`.  Every method may change the state of the
implementation (a mock records the call). -/
structure TaskEngine (σ : Type) where
  AddTask : σ → Task → Outcome σ
  ListTasks : σ → (List Task × Option Error) × σ
  GetTaskByArn : σ → String → (Option Task × Bool) × σ

/-! ## `processTaskEngine` -/

/-- The fields of `processTaskEngine` that its task methods use.  The Go map
`runningTasks` is an association list with the newest binding first. -/
structure processTaskEngine where
  runningTasks : List (String × Task)
  deriving DecidableEq, Repr

/-- The constructor `newProcessTaskEngine`: `runningTasks` is `make(map[string]*apitask.Task)`. -/
def newProcessTaskEngine : processTaskEngine :=
  { runningTasks := [] }

/-- The method `processTaskEngine.AddTask`. -/
def processTaskEngine.AddTask (pte : processTaskEngine) (task : Task) :
    Outcome processTaskEngine :=
  (managedDaemonCheck task).andThen fun isManagedDaemon =>
    if !isManagedDaemon then
      .panicked "unsupported process engine type"
    else if task.IsEBSTaskAttachEnabled then
      -- the body holds only TODO comments
      .returned pte
    else
      .returned pte

/-- The method `processTaskEngine.ListTasks`: the values of the map, appended one by one.
Go leaves the iteration order of a map unspecified; the order here is that of the
association list, and nothing below depends on it. -/
def processTaskEngine.ListTasks (pte : processTaskEngine) : List Task × Option Error :=
  (pte.runningTasks.foldl (fun allTasks kv => allTasks ++ [kv.2]) [], none)

/-- The method `processTaskEngine.GetTaskByArn`. -/
def processTaskEngine.GetTaskByArn (pte : processTaskEngine) (arn : String) :
    Option Task × Bool :=
  match pte.runningTasks.lookup arn with
  | none => (none, false)
  | some task => (some task, true)

/-- The `processTaskEngine` seen through the `TaskEngine` interface. -/
def processTaskEngine.asTaskEngine : TaskEngine processTaskEngine where
  AddTask := processTaskEngine.AddTask
  ListTasks := fun pte => (pte.ListTasks, pte)
  GetTaskByArn := fun pte arn => (pte.GetTaskByArn arn, pte)

/-! ## A recording backend -/

/-- A call received by a backend. -/
inductive Call where
  | AddTask (task : Task)
  | ListTasks
  | GetTaskByArn (arn : String)
  deriving DecidableEq, Repr

/-- A backend that answers from fixed tables and records every call it receives, in
order of arrival. -/
structure Recorder where
  calls : List Call
  listAnswer : List Task × Option Error
  arnAnswer : String → Option Task × Bool

/-- The state of a recorder after one more call. -/
def Recorder.record (r : Recorder) (c : Call) : Recorder :=
  { r with calls := r.calls ++ [c] }

/-- The recorder seen through the `TaskEngine` interface. -/
def Recorder.asTaskEngine : TaskEngine Recorder where
  AddTask := fun r task => .returned (r.record (.AddTask task))
  ListTasks := fun r => (r.listAnswer, r.record .ListTasks)
  GetTaskByArn := fun r arn => (r.arnAnswer arn, r.record (.GetTaskByArn arn))

/-! ## `taskEngineWrapper` -/

/-- The two backend fields of `taskEngineWrapper`, each the state of an implementation of
`TaskEngine`.  The channels `done` and `stateChangeEvents` belong to the relay, which is
modelled separately below. -/
structure taskEngineWrapper (δ π : Type) where
  dockerTaskEngine : δ
  processTaskEngine : π

variable {δ π : Type}

/-- The method `taskEngineWrapper.AddTask`. -/
def taskEngineWrapper.AddTask (D : TaskEngine δ) (P : TaskEngine π)
    (tew : taskEngineWrapper δ π) (task : Task) : Outcome (taskEngineWrapper δ π) :=
  (managedDaemonCheck task).andThen fun isManagedDaemon =>
    if isManagedDaemon then
      (P.AddTask tew.processTaskEngine task).andThen fun p =>
        .returned { tew with processTaskEngine := p }
    else
      (D.AddTask tew.dockerTaskEngine task).andThen fun d =>
        .returned { tew with dockerTaskEngine := d }

/-- The method `taskEngineWrapper.ListTasks`.  The process backend is asked only after the
container backend has answered without error. -/
def taskEngineWrapper.ListTasks (D : TaskEngine δ) (P : TaskEngine π)
    (tew : taskEngineWrapper δ π) : (List Task × Option Error) × taskEngineWrapper δ π :=
  match D.ListTasks tew.dockerTaskEngine with
  | ((_, some err), d) => (([], some err), { tew with dockerTaskEngine := d })
  | ((tasks, none), d) =>
    match P.ListTasks tew.processTaskEngine with
    | ((_, some err), p) =>
      (([], some err), { dockerTaskEngine := d, processTaskEngine := p })
    | ((ptasks, none), p) =>
      ((tasks ++ ptasks, none), { dockerTaskEngine := d, processTaskEngine := p })

/-- The method `taskEngineWrapper.GetTaskByArn`. -/
def taskEngineWrapper.GetTaskByArn (D : TaskEngine δ) (P : TaskEngine π)
    (tew : taskEngineWrapper δ π) (arn : String) :
    (Option Task × Bool) × taskEngineWrapper δ π :=
  match D.GetTaskByArn tew.dockerTaskEngine arn with
  | ((t, found), d) =>
    if !found then
      match P.GetTaskByArn tew.processTaskEngine arn with
      | ((t', found'), p) => ((t', found'), { dockerTaskEngine := d, processTaskEngine := p })
    else
      ((t, found), { tew with dockerTaskEngine := d })

/-! ## The relay `processEvents`

The goroutine started by `newTaskEngineWrapper` is a transition system.  Its control
point is either the `select`, or one of the two sends on `stateChangeEvents` with the
event just received, or past the `return`.  The environment supplies the events that the
backends deliver and closes `done` (which `Disable` does). -/

/-- The two channels the relay receives events from. -/
inductive Source where
  | docker
  | process
  deriving DecidableEq, Repr

/-- Control point of the goroutine `processEvents`. -/
inductive RelayPoint (ε : Type) where
  | selecting
  | sending (src : Source) (e : ε)
  | exited
  deriving DecidableEq, Repr

/-- State of the relay and of its channels.  `delivered` and the source tags in `outward`
are history variables: the code keeps neither.

* `delivered src`: the events whose send on the channel of `src` has completed, which
  for an unbuffered channel is the moment the relay receives them, oldest first;
* `outward`: the events whose send on `stateChangeEvents` has completed, oldest first;
* `done`: whether the channel `done` has been closed. -/
structure RelayState (ε : Type) where
  point : RelayPoint ε
  done : Bool
  delivered : Source → List ε
  outward : List (Source × ε)

/-- The state in which `newTaskEngineWrapper` starts the goroutine. -/
def RelayState.initial (ε : Type) : RelayState ε :=
  { point := .selecting, done := false, delivered := fun _ => [], outward := [] }

/-- The constructor `newTaskEngineWrapper`: the wrapper around the two backends, and the
relay it starts with `go te.processEvents()`, both channels fresh. -/
def newTaskEngineWrapper {δ π : Type} (dte : δ) (pte : π) (ε : Type) :
    taskEngineWrapper δ π × RelayState ε :=
  ({ dockerTaskEngine := dte, processTaskEngine := pte }, RelayState.initial ε)

/-- The moves of the relay and of its environment. -/
inductive RelayMove (ε : Type) where
  /-- A `select` case `e := <-...StateChangeEvents()` fires with the event `e` of `src`. -/
  | receive (src : Source) (e : ε)
  /-- The send `tew.stateChangeEvents <- e` completes: a reader takes the event. -/
  | publish
  /-- The `select` case `<-tew.done` fires and the goroutine returns. -/
  | stop
  /-- The statement `close(tew.done)` of `Disable`. -/
  | closeDone
  deriving DecidableEq, Repr

/-- One move from a state; `none` when the move is not enabled there. -/
def RelayState.step {ε : Type} (s : RelayState ε) : RelayMove ε → Option (RelayState ε)
  | .receive src e =>
    match s.point with
    | .selecting =>
      some { s with
        point := .sending src e
        delivered := fun x => if x = src then s.delivered x ++ [e] else s.delivered x }
    | _ => none
  | .publish =>
    match s.point with
    | .sending src e => some { s with point := .selecting, outward := s.outward ++ [(src, e)] }
    | _ => none
  | .stop =>
    match s.point with
    | .selecting => if s.done then some { s with point := .exited } else none
    | _ => none
  | .closeDone =>
    -- closing a closed channel panics: the move is enabled once
    if s.done then none else some { s with done := true }

/-- A sequence of moves from a state. -/
def RelayState.run {ε : Type} (s : RelayState ε) : List (RelayMove ε) → Option (RelayState ε)
  | [] => some s
  | m :: ms => (s.step m).bind fun s' => s'.run ms

/-- The events of `src` published on the outward channel, oldest first. -/
def RelayState.published {ε : Type} (s : RelayState ε) (src : Source) : List ε :=
  (s.outward.filter fun x => x.1 = src).map Prod.snd

/-- The event of `src` that the relay has received and not published yet, if any. -/
def RelayState.held {ε : Type} (s : RelayState ε) (src : Source) : List ε :=
  match s.point with
  | .sending src' e => if src' = src then [e] else []
  | _ => []

/-- The relation between what the relay has received and what it has published: for
each source, the published events followed by the held one are the delivered events. -/
def RelayState.Consistent {ε : Type} (s : RelayState ε) : Prop :=
  ∀ src, s.published src ++ s.held src = s.delivered src

/-! ## `Disable` -/

/-- The method `processTaskEngine.Disable`: its body holds only a TODO comment, so the
backend is as it was and nothing keeps it from writing events afterwards. -/
def processTaskEngine.Disable (pte : processTaskEngine) : Outcome processTaskEngine :=
  .returned pte

/-- The method `taskEngineWrapper.Disable`, over the `Disable` methods of the two
backends: the container backend is disabled, then the process backend, then `done` is
closed.  `relay` is the state of the relay at the moment of `close(tew.done)`; closing a
closed channel panics.  The method does not wait for the goroutine `processEvents`. -/
def taskEngineWrapper.Disable {ε : Type} (dockerDisable : δ → Outcome δ)
    (processDisable : π → Outcome π) (tew : taskEngineWrapper δ π) (relay : RelayState ε) :
    Outcome (taskEngineWrapper δ π × RelayState ε) :=
  (dockerDisable tew.dockerTaskEngine).andThen fun d =>
    (processDisable tew.processTaskEngine).andThen fun p =>
      match relay.step .closeDone with
      | some closed => .returned ({ dockerTaskEngine := d, processTaskEngine := p }, closed)
      | none => .panicked "close of closed channel"

end Engine

namespace DaemonManager

open Go

/-! ## Files, paths and the archive

The installer talks to the operating system through `os.Stat`, `os.MkdirAll`,
`os.OpenFile`, `io.Copy`, `os.Create` and `os.RemoveAll`, and to the archive through
`tar.Reader`.  These belong to the Go library; they are modelled here on a directory tree.

* A `Path` is the place of a node in the tree: the components of its canonical name,
  the volume first.  Which place a path string names is decided by `path/filepath` and by
  the operating system (cleaning, the current directory, the case of letters, links); the
  installer takes this as a `Naming`, and what is proved of it holds for every naming.
* The tree maps a place to the node found there.  Besides directories and regular files
  there are nodes that are neither (devices, pipes, sockets).
* A system call fails when the tree leaves no other choice (a missing parent, a node of
  the wrong kind) or when the operating system refuses it for a reason outside the tree
  (permissions, a full disk): such refusals are an input, see `Fault`.
* The archive is read through a descriptor opened before the first write, so that its
  entries do not change during the extraction. -/

/-- The place of a node in the tree: the components of its canonical name, outermost
first.  Two path strings that the operating system takes for the same node (after
cleaning, in another case, by a short name, through a link) name one place. -/
abbrev Path := List String

/-- How path strings name places in the tree.  Both functions belong to the Go library
and to the operating system, not to the installer, which only calls them.

* `join dir name`: the place of the node that a system call reaches when it is given the
  string `filepath.Join(dir, name)`;
* `locate path`: the place of the node that a system call reaches when it is given the
  string `path`. -/
structure Naming where
  join : String → String → Path
  locate : String → Path

/-- File contents. -/
abbrev Bytes := List (Fin 256)

/-- A node of the directory tree. -/
inductive Node where
  | dir
  | file (mode : Nat) (content : Bytes)
  | irregular
  deriving DecidableEq, Repr

/-- The directory tree. -/
abbrev FS := Path → Option Node

/-- The tree with the node at `p` replaced. -/
def FS.set (fs : FS) (p : Path) (n : Node) : FS :=
  fun q => if q = p then some n else fs q

/-- What `os.FileInfo` tells about a node. -/
structure FileInfo where
  isDirectory : Bool
  isRegular : Bool
  deriving DecidableEq, Repr

/-- The method `IsDir` of `os.FileInfo`. -/
def FileInfo.IsDir (i : FileInfo) : Bool := i.isDirectory

/-- The file information of a node. -/
def Node.info : Node → FileInfo
  | .dir => { isDirectory := true, isRegular := false }
  | .file _ _ => { isDirectory := false, isRegular := true }
  | .irregular => { isDirectory := false, isRegular := false }

/-- The function `os.IsPathSeparator` on Windows. -/
def isPathSeparator (c : Char) : Bool := c == '\\' || c == '/'

/-- The components of a path string, separators removed; `acc` is the component being
read, reversed. -/
def splitPath : List Char → List Char → List String
  | [], acc => [String.mk acc.reverse]
  | c :: cs, acc =>
    if isPathSeparator c then String.mk acc.reverse :: splitPath cs []
    else splitPath cs (c :: acc)

/-- Lexical cleaning of the components that follow the volume name, for a path rooted at
the volume: empty components and `.` are dropped, `..` removes the component before it
and is dropped where there is none; `acc` is the cleaned part, reversed. -/
def cleanComponents : List String → List String → Path
  | [], acc => acc.reverse
  | c :: cs, acc =>
    if c = "" ∨ c = "." then cleanComponents cs acc
    else if c = ".." then cleanComponents cs acc.tail
    else cleanComponents cs (c :: acc)

/-- A path string split into its drive, in lower case, and the rest; a path without
drive letter is on drive `c:`. -/
def splitVolume : List Char → String × List Char
  | d :: ':' :: rest =>
    if d.isAlpha then (String.mk [d.toLower, ':'], rest) else ("c:", d :: ':' :: rest)
  | cs => ("c:", cs)

/-- A component in lower case. -/
def foldCase (c : String) : String := String.mk (c.data.map Char.toLower)

/-- The place that a path string made of a drive letter and ASCII names has on a Windows
system whose current directory is the root of each drive: the drive, then the cleaned
components, all in lower case, so that `..` never leaves the drive and names that differ
in case only have one place. -/
def driveLocate (path : String) : Path :=
  (splitVolume path.data).1 ::
    (cleanComponents (splitPath (splitVolume path.data).2 []) []).map foldCase

/-- A naming for the sample inputs below: `driveLocate`, with `filepath.Join(dir, name)`
read as `dir`, a separator, `name`, an empty `dir` being left out.  UNC paths, device
names, streams, short names, trailing dots and links are outside of it. -/
def driveNaming : Naming where
  join := fun dir name =>
    if dir = "" then driveLocate name else driveLocate (dir ++ "\\" ++ name)
  locate := driveLocate

/-- The function `strings.TrimSuffix`. -/
def trimSuffix (s suffix : String) : String :=
  if suffix.data.isSuffixOf s.data then
    String.mk (s.data.take (s.data.length - suffix.data.length))
  else s

/-- A refusal by the operating system for a reason outside the directory tree. -/
inductive Fault where
  /-- Nothing is refused. -/
  | none
  /-- The call that creates the directory or opens the file fails. -/
  | refuse
  /-- The copy fails after `k` bytes have reached the file. -/
  | short (k : Nat)
  deriving DecidableEq, Repr

/-- The function `os.Stat` on the tree: it fails exactly when nothing is at the path.
Callers that must cope with every failure of the call take it as an argument, see
`daemonManager.IsLoaded`. -/
def osStat (fs : FS) (p : Path) : Except Error FileInfo :=
  match fs p with
  | some n => .ok n.info
  | Option.none => .error "The system cannot find the file specified."

/-- The function `os.MkdirAll`: every missing directory on the way to `p` is created,
unless a node on the way is not a directory. -/
def osMkdirAll (fs : FS) (p : Path) (fault : Fault) : Option Error × FS :=
  if fault = Fault.refuse then (some "Access is denied.", fs)
  else if p.inits.all (fun q => fs q = Option.none ∨ fs q = some Node.dir) then
    (Option.none, fun q => if q <+: p ∧ fs q = Option.none then some Node.dir else fs q)
  else (some "The system cannot find the path specified.", fs)

/-- The call `os.OpenFile(p, os.O_CREATE|os.O_WRONLY, mode)`: a missing file is created
empty with the given mode, an existing one is opened as it is. -/
def osOpenFile (fs : FS) (p : Path) (mode : Nat) (fault : Fault) : Option Error × FS :=
  if fault = Fault.refuse then (some "Access is denied.", fs)
  else
    match fs p.dropLast, fs p with
    | some Node.dir, Option.none => (Option.none, fs.set p (Node.file mode []))
    | some Node.dir, some (Node.file _ _) => (Option.none, fs)
    | some Node.dir, some Node.irregular => (Option.none, fs)
    | some Node.dir, some Node.dir => (some "is a directory", fs)
    | _, _ => (some "The system cannot find the path specified.", fs)

/-- Writing `written` from offset 0 into a file that holds `old`. -/
def overwrite (old written : Bytes) : Bytes := written ++ old.drop written.length

/-- The tree after `written` has gone through a descriptor opened on `p` for writing
from offset 0.  Writes to a node that is not a regular file leave the tree as it is. -/
def writeAt (fs : FS) (p : Path) (written : Bytes) : FS :=
  match fs p with
  | some (Node.file mode old) => fs.set p (Node.file mode (overwrite old written))
  | _ => fs

/-- The call `io.Copy(outFile, rdr)` for an entry with data `body`:  `readError` is the
error with which the archive ends the data, if any. -/
def ioCopy (fs : FS) (p : Path) (body : Bytes) (readError : Option Error) (fault : Fault) :
    Option Error × FS :=
  match fault with
  | Fault.short k => (some "There is not enough space on the disk.", writeAt fs p (body.take k))
  | _ =>
    match readError with
    | some err => (some err, writeAt fs p body)
    | Option.none => (Option.none, writeAt fs p body)

/-- The function `os.Create`: the file is created or truncated. -/
def osCreate (fs : FS) (p : Path) (fault : Fault) : Option Error × FS :=
  if fault = Fault.refuse then (some "Access is denied.", fs)
  else
    match fs p.dropLast, fs p with
    | some Node.dir, Option.none => (Option.none, fs.set p (Node.file 0o666 []))
    | some Node.dir, some (Node.file mode _) => (Option.none, fs.set p (Node.file mode []))
    | some Node.dir, some Node.irregular => (Option.none, fs)
    | some Node.dir, some Node.dir => (some "is a directory", fs)
    | _, _ => (some "The system cannot find the path specified.", fs)

/-- The function `os.RemoveAll`: for the empty string nothing is removed; otherwise the
node that `path` names and everything below it goes, except the nodes in `kept`, which
the operating system did not let go. -/
def osRemoveAll (nm : Naming) (fs : FS) (path : String) (kept : Path → Bool) : FS :=
  if path = "" then fs
  else fun q => if nm.locate path <+: q ∧ kept q = false then Option.none else fs q

/-- The type flag of an archive header: `tar.TypeReg`, `tar.TypeDir`, or another one. -/
inductive Typeflag where
  | TypeReg
  | TypeDir
  | other (flag : Char)
  deriving DecidableEq, Repr

/-- The fields of `tar.Header` that the installer reads. -/
structure Header where
  Name : String
  Typeflag : Typeflag
  Mode : Nat
  deriving DecidableEq, Repr

/-- An entry as `tar.Reader` delivers it: the header from `Next`, then the data from
`Read`; `readError` is the error that ends the data when the archive is cut short. -/
structure Entry where
  header : Header
  body : Bytes
  readError : Option Error
  deriving DecidableEq, Repr

/-- An archive as `tar.Reader` delivers it: the entries whose headers are read, then the
end of the stream, which is `io.EOF` (`none`) or another error. -/
structure Archive where
  entries : List Entry
  ending : Option Error
  deriving DecidableEq, Repr

/-! ## `daemonManager` -/

/-- The descriptor behind `dm.managedDaemon`: the answers of `GetImageName()` and
`GetImageTarPath()`. -/
structure ManagedDaemon where
  imageName : String
  imageTarPath : String
  deriving DecidableEq, Repr

/-- The field of `daemonManager` that the installer uses. -/
structure daemonManager where
  managedDaemon : ManagedDaemon
  deriving DecidableEq, Repr

/-- The method `tarPathToDestinationDir`. -/
def daemonManager.tarPathToDestinationDir (dm : daemonManager) : String :=
  trimSuffix dm.managedDaemon.imageTarPath ".tar"

/-- The method `destinationDirMarkerPath`, as the place its result names. -/
def daemonManager.destinationDirMarkerPath (dm : daemonManager) (nm : Naming) : Path :=
  nm.join dm.tarPathToDestinationDir "installed.marker"

/-- The method `IsLoaded`, over the `os.Stat` it calls. -/
def daemonManager.IsLoaded (dm : daemonManager) (nm : Naming)
    (stat : Path → Except Error FileInfo) :
    Bool × Option Error :=
  match stat (dm.destinationDirMarkerPath nm) with
  | .error _ => (false, Option.none)
  | .ok i => (!i.IsDir, Option.none)

/-- The expression `filepath.Join(daemonImageInstallPath, header.Name)`, as the place its
result names. -/
def daemonManager.targetPath (dm : daemonManager) (nm : Naming) (e : Entry) : Path :=
  nm.join dm.tarPathToDestinationDir e.header.Name

/-- The body of the `for` loop of `writeTarToDestinationDir` for one entry. -/
def daemonManager.extractEntry (dm : daemonManager) (nm : Naming) (e : Entry)
    (fault : Fault) (fs : FS) :
    Outcome (Option Error) × FS :=
  let targetPath := dm.targetPath nm e
  match e.header.Typeflag with
  | .TypeDir =>
    match osStat fs targetPath with
    | .error _ =>
      match osMkdirAll fs targetPath fault with
      | (some err, fs') =>
        (.returned (some ("failed to create directory in ManagedDaemon install path: " ++ err)),
          fs')
      | (Option.none, fs') => (.returned Option.none, fs')
    | .ok _ => (.returned Option.none, fs)
  | .TypeReg =>
    match osOpenFile fs targetPath e.header.Mode fault with
    | (some err, fs') =>
      (.returned (some ("failed to create file in ManagedDaemon install path: " ++ err)), fs')
    | (Option.none, fs') =>
      match ioCopy fs' targetPath e.body e.readError fault with
      | (some err, fs2) =>
        (.returned (some
          ("failed to copy file contents from tar to ManagedDaemon install path: " ++ err)),
          fs2)
      | (Option.none, fs2) => (.returned Option.none, fs2)
  | .other flag =>
    (.panicked ("Windows ManagedDaemon Tar contained unexpected type: " ++ String.singleton flag),
      fs)

/-- The end of `writeTarToDestinationDir`, after the loop: the marker file is written. -/
def daemonManager.writeMarker (dm : daemonManager) (nm : Naming) (fault : Fault) (fs : FS) :
    Outcome (Option Error) × FS :=
  match osCreate fs (dm.destinationDirMarkerPath nm) fault with
  | (some err, fs') =>
    (.returned (some ("failed to write maker file to ManagedDaemon install path: " ++ err)), fs')
  | (Option.none, fs') => (.returned Option.none, fs')

/-- The `for` loop of `writeTarToDestinationDir` over the entries still to be read, and
what follows it.  `faults` holds one refusal per step still to come: one for each entry,
then one for the marker; a missing one is `Fault.none`. -/
def daemonManager.extractFrom (dm : daemonManager) (nm : Naming) (ending : Option Error) :
    List Entry → List Fault → FS → Outcome (Option Error) × FS
  | [], faults, fs =>
    match ending with
    | some err =>
      (.returned (some ("unknown error when processing ManagedDaemon tar: " ++ err)), fs)
    | Option.none => dm.writeMarker nm (faults.headD Fault.none) fs
  | e :: es, faults, fs =>
    match dm.extractEntry nm e (faults.headD Fault.none) fs with
    | (.returned Option.none, fs') => daemonManager.extractFrom dm nm ending es faults.tail fs'
    | stopped => stopped

/-- The method `writeTarToDestinationDir`.  `tar` is what `os.Open` and `tar.NewReader`
make of the file named by `fmt.Sprintf(daemonImageTarPath)`: the error of `os.Open`, or
the archive. -/
def daemonManager.writeTarToDestinationDir (dm : daemonManager) (nm : Naming)
    (tar : Except Error Archive) (faults : List Fault) (fs : FS) : Outcome (Option Error) × FS :=
  match tar with
  | .error err =>
    (.returned (some ("failed to open ManagedDaemon tar for read: " ++ err)), fs)
  | .ok archive => dm.extractFrom nm archive.ending archive.entries faults fs

/-- The method `cleanupDestinationDir`; a failure of `os.RemoveAll` is only logged. -/
def daemonManager.cleanupDestinationDir (dm : daemonManager) (nm : Naming)
    (kept : Path → Bool) (fs : FS) : FS :=
  osRemoveAll nm fs dm.tarPathToDestinationDir kept

/-- The method `CreateDaemonTask`, with the fields of the task that the engine reads;
`uuid` is the value of `uuid.NewUUID()`.  The task has no volume, so EBS task attachment
is off. -/
def daemonManager.CreateDaemonTask (dm : daemonManager) (uuid : String) :
    Engine.Task × Option Error :=
  ({ Arn := "arn:::::/" ++ dm.managedDaemon.imageName ++ "-" ++ uuid
     Containers := [some { Type_ := Engine.ContainerType.ContainerManagedDaemon }]
     ebsTaskAttach := false }, Option.none)

/-- The method `LoadImage`.  The result is the error, `none` standing for the pair of a
fresh `types.ImageInspect` and a nil error. -/
def daemonManager.LoadImage (dm : daemonManager) (nm : Naming) (tar : Except Error Archive)
    (faults : List Fault) (kept : Path → Bool) (fs : FS) : Outcome (Option Error) × FS :=
  match dm.IsLoaded nm (osStat fs) with
  | (_, some err) => (.returned (some err), fs)
  | (isLoaded, Option.none) =>
    if !isLoaded then
      match dm.writeTarToDestinationDir nm tar faults fs with
      | (.returned (some err), fs') =>
        (.returned (some err), dm.cleanupDestinationDir nm kept fs')
      | (.returned Option.none, fs') => (.returned Option.none, fs')
      | (.panicked msg, fs') => (.panicked msg, fs')
    else (.returned Option.none, fs)

/-- The targets of the regular-file entries among `es`, in archive order. -/
def daemonManager.regularTargets (dm : daemonManager) (nm : Naming) (es : List Entry) :
    List Path :=
  (es.filter fun e => e.header.Typeflag = Typeflag.TypeReg).map (dm.targetPath nm)

/-- An entry that cannot write the marker: a regular-file entry whose target is not the
marker path, a directory entry whose target is neither the marker path nor below it, or
an entry of another type. -/
def daemonManager.SparesMarker (dm : daemonManager) (nm : Naming) (e : Entry) : Prop :=
  (e.header.Typeflag = Typeflag.TypeReg →
      dm.targetPath nm e ≠ dm.destinationDirMarkerPath nm) ∧
    (e.header.Typeflag = Typeflag.TypeDir →
      ¬ dm.destinationDirMarkerPath nm <+: dm.targetPath nm e)

instance (dm : daemonManager) (nm : Naming) (e : Entry) : Decidable (dm.SparesMarker nm e) :=
  inferInstanceAs (Decidable (_ ∧ _))

/-- Writing the bytes of `e` from offset 0 replaces all that the target of `e` holds in
`fs`: the target holds no irregular node and no regular file longer than the entry. -/
def daemonManager.LeavesNoRemainder (dm : daemonManager) (nm : Naming) (fs : FS)
    (e : Entry) : Prop :=
  match fs (dm.targetPath nm e) with
  | some (Node.file _ old) => old.length ≤ e.body.length
  | some Node.irregular => False
  | _ => True

instance (dm : daemonManager) (nm : Naming) (fs : FS) (e : Entry) :
    Decidable (dm.LeavesNoRemainder nm fs e) := by
  unfold daemonManager.LeavesNoRemainder
  split <;> infer_instance

end DaemonManager

/-! ## Sample inputs -/

namespace Samples

open Go Engine DaemonManager

/-- A manager for an archive at `C:\daemons\ebs.tar`; under `driveNaming` its install
directory is the place `c:`, `daemons`, `ebs`. -/
def sampleManager : daemonManager :=
  { managedDaemon := { imageName := "ebs-csi-driver", imageTarPath := "C:\\daemons\\ebs.tar" } }

/-- A managed-daemon task, built by `CreateDaemonTask`. -/
def sampleDaemonTask : Task :=
  (sampleManager.CreateDaemonTask "6ba7b810-9dad-11d1-80b4-00c04fd430c8").1

/-- An ordinary task with two containers. -/
def sampleContainerTask : Task :=
  { Arn := "arn:aws:ecs:us-west-2:1:task/web"
    Containers := [some { Type_ := .ContainerNormal }, some { Type_ := .ContainerNormal }]
    ebsTaskAttach := false }

/-- A recorder that has received nothing and knows no task. -/
def emptyRecorder : Recorder :=
  { calls := [], listAnswer := ([], none), arnAnswer := fun _ => (none, false) }

/-- A recorder that has received nothing and answers `ListTasks` with `answer`. -/
def recorderAnswering (answer : List Task × Option Error) : Recorder :=
  { calls := [], listAnswer := answer, arnAnswer := fun _ => (none, false) }

/-- A process backend whose registry binds the ARN of the sample daemon task. -/
def registryWithDaemonTask : processTaskEngine :=
  { runningTasks := [(sampleDaemonTask.Arn, sampleDaemonTask)] }

/-- A run of the relay: two events received and published, a third received. -/
def sampleMoves : List (RelayMove Nat) :=
  [.receive .docker 1, .publish, .receive .process 2, .publish, .receive .docker 3]

/-- The state of the relay after `sampleMoves`. -/
def sampleRelayState : RelayState Nat :=
  { point := .sending .docker 3
    done := false
    delivered := fun x => if x = Source.docker then [1, 3] else [2]
    outward := [(.docker, 1), (.process, 2)] }

/-- A tree that holds the install directory of `sampleManager`, empty, and nothing else. -/
def emptyInstallDir : FS :=
  fun q => if q <+: ["c:", "daemons", "ebs"] then some Node.dir else none

/-- An archive whose first entry is a regular file named like the marker and whose second
entry is a regular file in a directory that no entry creates. -/
def archiveNamingMarker : Archive :=
  { entries :=
      [ { header := { Name := "installed.marker", Typeflag := .TypeReg, Mode := 0o644 }
          body := [1], readError := none },
        { header := { Name := "bin/daemon.exe", Typeflag := .TypeReg, Mode := 0o755 }
          body := [2], readError := none } ]
    ending := none }

/-- An archive with a directory, a file in it, and a file in a directory that no entry
creates. -/
def archiveMissingDir : Archive :=
  { entries :=
      [ { header := { Name := "cfg/", Typeflag := .TypeDir, Mode := 0o755 }
          body := [], readError := none },
        { header := { Name := "cfg/app.conf", Typeflag := .TypeReg, Mode := 0o644 }
          body := [112, 111, 114, 116, 61, 49], readError := none },
        { header := { Name := "bin/daemon.exe", Typeflag := .TypeReg, Mode := 0o755 }
          body := [2], readError := none } ]
    ending := none }

/-- The tree `emptyInstallDir` with a node at the marker path that is neither a directory
nor a regular file (a socket, say). -/
def irregularMarker : FS :=
  emptyInstallDir.set ["c:", "daemons", "ebs", "installed.marker"] Node.irregular

/-- An archive with a directory and a file in it. -/
def archiveConfig : Archive :=
  { entries :=
      [ { header := { Name := "cfg/", Typeflag := .TypeDir, Mode := 0o755 }
          body := [], readError := none },
        { header := { Name := "cfg/app.conf", Typeflag := .TypeReg, Mode := 0o644 }
          body := [112, 111, 114, 116, 61, 49], readError := none } ]
    ending := none }

/-- A tree left by an extraction of an older archive that stopped before the marker: the
install directory, the directory `cfg`, and `cfg/app.conf` holding the nine bytes
`port=8080`. -/
def staleInstallDir : FS :=
  (emptyInstallDir.set ["c:", "daemons", "ebs", "cfg"] Node.dir).set
    ["c:", "daemons", "ebs", "cfg", "app.conf"]
    (Node.file 0o644 [112, 111, 114, 116, 61, 56, 48, 56, 48])

/-- An archive with two regular-file entries of the same name. -/
def archiveTwice : Archive :=
  { entries :=
      [ { header := { Name := "app.conf", Typeflag := .TypeReg, Mode := 0o644 }
          body := [1], readError := none },
        { header := { Name := "app.conf", Typeflag := .TypeReg, Mode := 0o644 }
          body := [2], readError := none } ]
    ending := none }

/-- An archive with two regular-file entries whose names differ in case only. -/
def archiveTwiceByCase : Archive :=
  { entries :=
      [ { header := { Name := "app.conf", Typeflag := .TypeReg, Mode := 0o644 }
          body := [1], readError := none },
        { header := { Name := "APP.CONF", Typeflag := .TypeReg, Mode := 0o644 }
          body := [2], readError := none } ]
    ending := none }

/-- An archive whose only entry is a regular file named like the marker. -/
def archiveOnlyMarker : Archive :=
  { entries :=
      [ { header := { Name := "installed.marker", Typeflag := .TypeReg, Mode := 0o644 }
          body := [1], readError := none } ]
    ending := none }

/-- A wrapper around a fresh recorder and a fresh process backend. -/
def sampleWrapper : taskEngineWrapper Recorder processTaskEngine :=
  { dockerTaskEngine := emptyRecorder, processTaskEngine := newProcessTaskEngine }

/-- The relay right after `Disable` on a fresh wrapper: at the `select`, `done` closed,
nothing received and nothing published. -/
def disabledRelay : RelayState Nat :=
  { point := .selecting, done := true, delivered := fun _ => [], outward := [] }

/-- Moves after `Disable`: the container backend, a mock that its `Disable` does not
silence, writes event 7; the relay receives it and publishes it. -/
def lateMoves : List (RelayMove Nat) :=
  [.receive .docker 7, .publish]

/-- Moves after `Disable`: as `lateMoves`, then the relay takes the case `<-tew.done`. -/
def lateMovesThenStop : List (RelayMove Nat) :=
  [.receive .docker 7, .publish, .stop]

/-- The relay after `lateMovesThenStop` from `disabledRelay`. -/
def stoppedRelay : RelayState Nat :=
  { point := .exited
    done := true
    delivered := fun x => if x = Source.docker then [7] else []
    outward := [(.docker, 7)] }

/-- An archive whose first entry is a regular file that reaches the marker under another
name, by way of `..` and in upper case, and whose second entry is a regular file in a
directory that no entry creates. -/
def archiveAliasingMarker : Archive :=
  { entries :=
      [ { header := { Name := "../../../daemons/ebs/INSTALLED.MARKER", Typeflag := .TypeReg,
                      Mode := 0o644 }
          body := [1], readError := none },
        { header := { Name := "bin/daemon.exe", Typeflag := .TypeReg, Mode := 0o755 }
          body := [2], readError := none } ]
    ending := none }

/-- An archive whose first entry is a directory named like the marker and whose second
entry is a regular file in a directory that no entry creates. -/
def archiveMarkerDir : Archive :=
  { entries :=
      [ { header := { Name := "installed.marker/", Typeflag := .TypeDir, Mode := 0o755 }
          body := [], readError := none },
        { header := { Name := "bin/daemon.exe", Typeflag := .TypeReg, Mode := 0o755 }
          body := [2], readError := none } ]
    ending := none }

end Samples

/-! # Properties of the dispatcher and of the process backend -/

namespace Engine

open Go Samples

variable {δ π : Type}

/-- The check in the code answers the managed-daemon predicate whenever no container
pointer is nil. -/
theorem managedDaemonCheck_eq (task : Task) (hnil : ∀ c ∈ task.Containers, c ≠ none) :
    managedDaemonCheck task = .returned (decide (IsManagedDaemonTask task)) := by
  by_cases hmd : IsManagedDaemonTask task
  · obtain ⟨c, hc, ht⟩ := hmd
    have hmd : IsManagedDaemonTask task := ⟨c, hc, ht⟩
    simp [managedDaemonCheck, hc, ht, hmd]
  · simp only [hmd, decide_False]
    unfold managedDaemonCheck
    match h : task.Containers with
    | [] => simp
    | [none] => exact absurd rfl (hnil none (by simp [h]))
    | [some c] =>
      have hc : c.Type_ ≠ ContainerType.ContainerManagedDaemon := fun ht => hmd ⟨c, h, ht⟩
      simp [hc]
    | _ :: _ :: _ => simp

/-- A single nil container makes the check panic. -/
theorem managedDaemonCheck_nil (task : Task) (h : task.Containers = [none]) :
    managedDaemonCheck task =
      .panicked "invalid memory address or nil pointer dereference" := by
  simp [managedDaemonCheck, h]

/-- C1: for a task without nil containers, `taskEngineWrapper.AddTask` hands the task to
exactly one backend.  If the task has exactly one container and that container is a
managed daemon, the call is the process backend's `AddTask` and the container backend is
left as it was; in every other case the call is the container backend's `AddTask` and the
process backend is left as it was.  With two recording backends, the chosen one records
the single call `AddTask task` and the other records nothing. -/
theorem wrapper_AddTask_routes (D : TaskEngine δ) (P : TaskEngine π)
    (tew : taskEngineWrapper δ π) (d p : Recorder) (task : Task)
    (hnil : ∀ c ∈ task.Containers, c ≠ none) :
    (IsManagedDaemonTask task →
      taskEngineWrapper.AddTask D P tew task =
          (P.AddTask tew.processTaskEngine task).andThen
            (fun p' => .returned { tew with processTaskEngine := p' }) ∧
        taskEngineWrapper.AddTask Recorder.asTaskEngine Recorder.asTaskEngine
            { dockerTaskEngine := d, processTaskEngine := p } task =
          .returned { dockerTaskEngine := d, processTaskEngine := p.record (.AddTask task) }) ∧
    (¬ IsManagedDaemonTask task →
      taskEngineWrapper.AddTask D P tew task =
          (D.AddTask tew.dockerTaskEngine task).andThen
            (fun d' => .returned { tew with dockerTaskEngine := d' }) ∧
        taskEngineWrapper.AddTask Recorder.asTaskEngine Recorder.asTaskEngine
            { dockerTaskEngine := d, processTaskEngine := p } task =
          .returned { dockerTaskEngine := d.record (.AddTask task), processTaskEngine := p }) := by
  constructor
  · intro hmd
    simp [taskEngineWrapper.AddTask, managedDaemonCheck_eq task hnil, hmd, Outcome.andThen,
      Recorder.asTaskEngine]
  · intro hmd
    simp [taskEngineWrapper.AddTask, managedDaemonCheck_eq task hnil, hmd, Outcome.andThen,
      Recorder.asTaskEngine]

/-- C1 at a managed-daemon task and two fresh recorders: the process backend records the
call and the container backend records nothing. -/
theorem wrapper_AddTask_routes_witness :
    (∀ c ∈ sampleDaemonTask.Containers, c ≠ none) ∧ IsManagedDaemonTask sampleDaemonTask ∧
      taskEngineWrapper.AddTask Recorder.asTaskEngine Recorder.asTaskEngine
          { dockerTaskEngine := emptyRecorder, processTaskEngine := emptyRecorder }
          sampleDaemonTask =
        .returned { dockerTaskEngine := emptyRecorder,
                    processTaskEngine := emptyRecorder.record (.AddTask sampleDaemonTask) } :=
  have hnil : ∀ c ∈ sampleDaemonTask.Containers, c ≠ none := by decide
  have hmd : IsManagedDaemonTask sampleDaemonTask := by decide
  ⟨hnil, hmd,
    ((wrapper_AddTask_routes Recorder.asTaskEngine Recorder.asTaskEngine
      { dockerTaskEngine := emptyRecorder, processTaskEngine := emptyRecorder }
      emptyRecorder emptyRecorder sampleDaemonTask hnil).1 hmd).2⟩

/-- C5, evaluated at a task built by `CreateDaemonTask` and a backend fresh from
`newProcessTaskEngine`: the task satisfies the managed-daemon predicate and `AddTask`
returns, yet the backend is as it was before the call, `GetTaskByArn` for the task's ARN
answers not found, and `ListTasks` answers the empty list. -/
theorem processTaskEngine_AddTask_registers_nothing :
    IsManagedDaemonTask sampleDaemonTask ∧
      newProcessTaskEngine.AddTask sampleDaemonTask = .returned newProcessTaskEngine ∧
      newProcessTaskEngine.GetTaskByArn sampleDaemonTask.Arn = (none, false) ∧
      newProcessTaskEngine.ListTasks = ([], none) := by
  decide

/-- C6: `processTaskEngine.AddTask` panics exactly when the task does not satisfy the
managed-daemon predicate, and returns (leaving the backend as it was) exactly when the
task satisfies it.  The result type of the call has no error component. -/
theorem processTaskEngine_AddTask_panics_iff (pte : processTaskEngine) (task : Task) :
    ((∃ msg, pte.AddTask task = .panicked msg) ↔ ¬ IsManagedDaemonTask task) ∧
      (pte.AddTask task = .returned pte ↔ IsManagedDaemonTask task) ∧
      (∀ pte', pte.AddTask task = .returned pte' → pte' = pte) := by
  by_cases hnil : ∀ c ∈ task.Containers, c ≠ none
  · by_cases hmd : IsManagedDaemonTask task <;>
      simp [processTaskEngine.AddTask, managedDaemonCheck_eq task hnil, hmd, Outcome.andThen]
  · have hmd : ¬ IsManagedDaemonTask task := by
      rintro ⟨c, hc, -⟩
      exact hnil (by simp [hc])
    unfold processTaskEngine.AddTask managedDaemonCheck
    match h : task.Containers with
    | [] => simp [Outcome.andThen, hmd]
    | [none] => simp [Outcome.andThen, hmd]
    | [some c] => exact absurd (by simp [h]) hnil
    | _ :: _ :: _ => simp [Outcome.andThen, hmd]

/-- C6 at the two sample tasks: the ordinary task makes `AddTask` panic, the
managed-daemon task makes it return. -/
theorem processTaskEngine_AddTask_panics_iff_witness :
    (∃ msg, newProcessTaskEngine.AddTask sampleContainerTask = .panicked msg) ∧
      newProcessTaskEngine.AddTask sampleDaemonTask = .returned newProcessTaskEngine :=
  ⟨(processTaskEngine_AddTask_panics_iff newProcessTaskEngine sampleContainerTask).1.mpr
      (by decide),
    (processTaskEngine_AddTask_panics_iff newProcessTaskEngine sampleDaemonTask).2.1.mpr
      (by decide)⟩

/-- C7: `taskEngineWrapper.ListTasks` concatenates or fails as a whole.  When both
backends answer without error, the answer is the container backend's list followed by the
process backend's list, without error.  When the container backend answers with an error,
the answer is no task and that error, and the process backend is not asked.  When the
container backend answers without error and the process backend with an error, the
answer is no task and the process backend's error. -/
theorem wrapper_ListTasks_fail_closed (D : TaskEngine δ) (P : TaskEngine π)
    (tew : taskEngineWrapper δ π) (tasks ptasks : List Task) (d : δ) (p : π) :
    (D.ListTasks tew.dockerTaskEngine = ((tasks, none), d) →
      P.ListTasks tew.processTaskEngine = ((ptasks, none), p) →
      taskEngineWrapper.ListTasks D P tew =
        ((tasks ++ ptasks, none), { dockerTaskEngine := d, processTaskEngine := p })) ∧
    (∀ err, D.ListTasks tew.dockerTaskEngine = ((tasks, some err), d) →
      taskEngineWrapper.ListTasks D P tew =
        (([], some err), { dockerTaskEngine := d, processTaskEngine := tew.processTaskEngine })) ∧
    (∀ err, D.ListTasks tew.dockerTaskEngine = ((tasks, none), d) →
      P.ListTasks tew.processTaskEngine = ((ptasks, some err), p) →
      taskEngineWrapper.ListTasks D P tew =
        (([], some err), { dockerTaskEngine := d, processTaskEngine := p })) := by
  refine ⟨?_, ?_, ?_⟩
  · intro hd hp
    simp [taskEngineWrapper.ListTasks, hd, hp]
  · intro err hd
    simp [taskEngineWrapper.ListTasks, hd]
  · intro err hd hp
    simp [taskEngineWrapper.ListTasks, hd, hp]

/-- C7 at recording backends: two lists are concatenated in order; an error of the
container backend hides the tasks of both and leaves the process backend without a call;
an error of the process backend hides the tasks of the container backend. -/
theorem wrapper_ListTasks_fail_closed_witness :
    taskEngineWrapper.ListTasks Recorder.asTaskEngine Recorder.asTaskEngine
        { dockerTaskEngine := recorderAnswering ([sampleContainerTask], none)
          processTaskEngine := recorderAnswering ([sampleDaemonTask], none) } =
      (([sampleContainerTask, sampleDaemonTask], none),
        { dockerTaskEngine := (recorderAnswering ([sampleContainerTask], none)).record .ListTasks
          processTaskEngine := (recorderAnswering ([sampleDaemonTask], none)).record .ListTasks }) ∧
    taskEngineWrapper.ListTasks Recorder.asTaskEngine Recorder.asTaskEngine
        { dockerTaskEngine := recorderAnswering ([sampleContainerTask], some "docker down")
          processTaskEngine := recorderAnswering ([sampleDaemonTask], none) } =
      (([], some "docker down"),
        { dockerTaskEngine :=
            (recorderAnswering ([sampleContainerTask], some "docker down")).record .ListTasks
          processTaskEngine := recorderAnswering ([sampleDaemonTask], none) }) ∧
    taskEngineWrapper.ListTasks Recorder.asTaskEngine Recorder.asTaskEngine
        { dockerTaskEngine := recorderAnswering ([sampleContainerTask], none)
          processTaskEngine := recorderAnswering ([sampleDaemonTask], some "registry lost") } =
      (([], some "registry lost"),
        { dockerTaskEngine := (recorderAnswering ([sampleContainerTask], none)).record .ListTasks
          processTaskEngine :=
            (recorderAnswering ([sampleDaemonTask], some "registry lost")).record .ListTasks }) :=
  ⟨(wrapper_ListTasks_fail_closed Recorder.asTaskEngine Recorder.asTaskEngine
      { dockerTaskEngine := recorderAnswering ([sampleContainerTask], none)
        processTaskEngine := recorderAnswering ([sampleDaemonTask], none) }
      [sampleContainerTask] [sampleDaemonTask]
      ((recorderAnswering ([sampleContainerTask], none)).record .ListTasks)
      ((recorderAnswering ([sampleDaemonTask], none)).record .ListTasks)).1 rfl rfl,
    (wrapper_ListTasks_fail_closed Recorder.asTaskEngine Recorder.asTaskEngine
      { dockerTaskEngine := recorderAnswering ([sampleContainerTask], some "docker down")
        processTaskEngine := recorderAnswering ([sampleDaemonTask], none) }
      [sampleContainerTask] [sampleDaemonTask]
      ((recorderAnswering ([sampleContainerTask], some "docker down")).record .ListTasks)
      (recorderAnswering ([sampleDaemonTask], none))).2.1 "docker down" rfl,
    (wrapper_ListTasks_fail_closed Recorder.asTaskEngine Recorder.asTaskEngine
      { dockerTaskEngine := recorderAnswering ([sampleContainerTask], none)
        processTaskEngine := recorderAnswering ([sampleDaemonTask], some "registry lost") }
      [sampleContainerTask] [sampleDaemonTask]
      ((recorderAnswering ([sampleContainerTask], none)).record .ListTasks)
      ((recorderAnswering ([sampleDaemonTask], some "registry lost")).record .ListTasks)).2.2
        "registry lost" rfl rfl⟩

/-- C8: `taskEngineWrapper.GetTaskByArn` asks the container backend first.  If that
backend finds the ARN, its task is the answer, found, and the process backend is not
asked.  If it does not, the answer is the process backend's answer.  With the
`processTaskEngine` as process backend and an ARN the container backend does not find:
an ARN bound in `runningTasks` is found with the task bound to it, and an ARN not bound
there is not found. -/
theorem wrapper_GetTaskByArn_first_match (D : TaskEngine δ) (P : TaskEngine π)
    (tew : taskEngineWrapper δ π) (arn : String) (t : Option Task) (d : δ) :
    (D.GetTaskByArn tew.dockerTaskEngine arn = ((t, true), d) →
      taskEngineWrapper.GetTaskByArn D P tew arn =
        ((t, true), { dockerTaskEngine := d, processTaskEngine := tew.processTaskEngine })) ∧
    (D.GetTaskByArn tew.dockerTaskEngine arn = ((t, false), d) →
      taskEngineWrapper.GetTaskByArn D P tew arn =
        ((P.GetTaskByArn tew.processTaskEngine arn).1,
          { dockerTaskEngine := d
            processTaskEngine := (P.GetTaskByArn tew.processTaskEngine arn).2 })) ∧
    (∀ (pte : processTaskEngine) (task : Task),
      D.GetTaskByArn tew.dockerTaskEngine arn = ((t, false), d) →
      pte.runningTasks.lookup arn = some task →
      (taskEngineWrapper.GetTaskByArn D processTaskEngine.asTaskEngine
        { dockerTaskEngine := tew.dockerTaskEngine, processTaskEngine := pte } arn).1 =
        (some task, true)) ∧
    (∀ (pte : processTaskEngine),
      D.GetTaskByArn tew.dockerTaskEngine arn = ((t, false), d) →
      pte.runningTasks.lookup arn = none →
      (taskEngineWrapper.GetTaskByArn D processTaskEngine.asTaskEngine
        { dockerTaskEngine := tew.dockerTaskEngine, processTaskEngine := pte } arn).1 =
        (none, false)) := by
  refine ⟨?_, ?_, ?_, ?_⟩
  · intro hd
    simp [taskEngineWrapper.GetTaskByArn, hd]
  · intro hd
    simp [taskEngineWrapper.GetTaskByArn, hd]
  · intro pte task hd hp
    simp [taskEngineWrapper.GetTaskByArn, hd, processTaskEngine.asTaskEngine,
      processTaskEngine.GetTaskByArn, hp]
  · intro pte hd hp
    simp [taskEngineWrapper.GetTaskByArn, hd, processTaskEngine.asTaskEngine,
      processTaskEngine.GetTaskByArn, hp]

/-- C8 at a container backend that knows no task and a process backend whose registry
binds the ARN of the sample daemon task: the task is found; another ARN is not. -/
theorem wrapper_GetTaskByArn_first_match_witness :
    (taskEngineWrapper.GetTaskByArn Recorder.asTaskEngine processTaskEngine.asTaskEngine
        { dockerTaskEngine := emptyRecorder, processTaskEngine := registryWithDaemonTask }
        sampleDaemonTask.Arn).1 = (some sampleDaemonTask, true) ∧
    (taskEngineWrapper.GetTaskByArn Recorder.asTaskEngine processTaskEngine.asTaskEngine
        { dockerTaskEngine := emptyRecorder, processTaskEngine := registryWithDaemonTask }
        sampleContainerTask.Arn).1 = (none, false) :=
  ⟨(wrapper_GetTaskByArn_first_match Recorder.asTaskEngine processTaskEngine.asTaskEngine
      { dockerTaskEngine := emptyRecorder, processTaskEngine := registryWithDaemonTask }
      sampleDaemonTask.Arn none
      (emptyRecorder.record (.GetTaskByArn sampleDaemonTask.Arn))).2.2.1
        registryWithDaemonTask sampleDaemonTask rfl (by decide),
    (wrapper_GetTaskByArn_first_match Recorder.asTaskEngine processTaskEngine.asTaskEngine
      { dockerTaskEngine := emptyRecorder, processTaskEngine := registryWithDaemonTask }
      sampleContainerTask.Arn none
      (emptyRecorder.record (.GetTaskByArn sampleContainerTask.Arn))).2.2.2
        registryWithDaemonTask rfl (by decide)⟩

/-! ## The relay -/

/-- The initial state is consistent. -/
theorem RelayState.initial_consistent (ε : Type) : (RelayState.initial ε).Consistent := by
  intro src
  simp [RelayState.initial, RelayState.published, RelayState.held]

/-- Every move keeps the state consistent. -/
theorem RelayState.step_consistent {ε : Type} (s s' : RelayState ε) (m : RelayMove ε)
    (hs : s.Consistent) (hstep : s.step m = some s') : s'.Consistent := by
  intro src
  have h := hs src
  cases m with
  | receive src' e =>
    cases hp : s.point with
    | selecting =>
      simp only [RelayState.step, hp, Option.some.injEq] at hstep
      subst hstep
      simp only [RelayState.published, RelayState.held, hp, List.append_nil] at h ⊢
      by_cases hsrc : src = src'
      · subst hsrc
        simp [h]
      · have hsrc' : ¬ src' = src := fun hh => hsrc hh.symm
        simp [h, hsrc, hsrc']
    | sending a b => simp [RelayState.step, hp] at hstep
    | exited => simp [RelayState.step, hp] at hstep
  | publish =>
    cases hp : s.point with
    | selecting => simp [RelayState.step, hp] at hstep
    | sending src' e =>
      simp only [RelayState.step, hp, Option.some.injEq] at hstep
      subst hstep
      simp only [RelayState.published, RelayState.held, hp] at h ⊢
      by_cases hsrc : src' = src
      · simp [hsrc] at h ⊢
        exact h
      · simp [hsrc] at h ⊢
        exact h
    | exited => simp [RelayState.step, hp] at hstep
  | stop =>
    cases hp : s.point with
    | selecting =>
      simp only [RelayState.step, hp] at hstep
      split at hstep
      · simp only [Option.some.injEq] at hstep
        subst hstep
        simpa [RelayState.published, RelayState.held, hp] using h
      · simp at hstep
    | sending a b => simp [RelayState.step, hp] at hstep
    | exited => simp [RelayState.step, hp] at hstep
  | closeDone =>
    simp only [RelayState.step] at hstep
    split at hstep
    · simp at hstep
    · simp only [Option.some.injEq] at hstep
      subst hstep
      simpa [RelayState.published, RelayState.held] using h

/-- Every sequence of moves keeps the state consistent. -/
theorem RelayState.run_consistent {ε : Type} (moves : List (RelayMove ε)) :
    ∀ (s s' : RelayState ε), s.Consistent → s.run moves = some s' → s'.Consistent := by
  induction moves with
  | nil =>
    intro s s' hs hrun
    simp only [RelayState.run, Option.some.injEq] at hrun
    exact hrun ▸ hs
  | cons m ms ih =>
    intro s s' hs hrun
    simp only [RelayState.run] at hrun
    cases hstep : s.step m with
    | none => simp [hstep] at hrun
    | some s1 =>
      simp only [hstep, Option.some_bind] at hrun
      exact ih s1 s' (RelayState.step_consistent s s1 m hs hstep) hrun

/-- C10: in every state the relay reaches from its start, for each backend the events
published on the outward channel that came from this backend are an initial segment of
the events the backend delivered, in the same order; together with the one event the
relay may be holding they are exactly the delivered events, so that none is repeated,
changed or left out; and the relay never holds more than one event. -/
theorem relay_preserves_order_per_source {ε : Type} (moves : List (RelayMove ε))
    (s : RelayState ε) (hrun : (RelayState.initial ε).run moves = some s) (src : Source) :
    s.published src <+: s.delivered src ∧
      s.published src ++ s.held src = s.delivered src ∧
      (s.held src).length ≤ 1 := by
  have h := RelayState.run_consistent moves _ s (RelayState.initial_consistent ε) hrun src
  refine ⟨⟨s.held src, h⟩, h, ?_⟩
  unfold RelayState.held
  split
  · split <;> simp
  · simp

/-- C10 on a run in which the relay receives event 1 from the container backend,
publishes it, receives event 2 from the process backend, publishes it, and receives
event 3 from the container backend: 1 alone is published for the container backend, out
of the delivered 1 and 3. -/
theorem relay_preserves_order_per_source_witness :
    (RelayState.initial Nat).run sampleMoves = some sampleRelayState ∧
      sampleRelayState.published Source.docker = [1] ∧
      sampleRelayState.delivered Source.docker = [1, 3] ∧
      (sampleRelayState.published Source.docker <+: sampleRelayState.delivered Source.docker ∧
        sampleRelayState.published Source.docker ++ sampleRelayState.held Source.docker =
          sampleRelayState.delivered Source.docker ∧
        (sampleRelayState.held Source.docker).length ≤ 1) :=
  have hrun : (RelayState.initial Nat).run sampleMoves = some sampleRelayState := by
    simp [sampleMoves, sampleRelayState, RelayState.run, RelayState.step, RelayState.initial]
    funext x
    cases x <;> simp
  ⟨hrun, by decide, by decide,
    relay_preserves_order_per_source sampleMoves sampleRelayState hrun Source.docker⟩

/-! ## `Disable` and the relay -/

/-- No move opens `done` again. -/
theorem RelayState.step_done {ε : Type} (s s' : RelayState ε) (m : RelayMove ε)
    (hd : s.done = true) (hstep : s.step m = some s') : s'.done = true := by
  cases m with
  | receive src e =>
    cases hp : s.point <;> simp [RelayState.step, hp] at hstep
    subst hstep
    exact hd
  | publish =>
    cases hp : s.point <;> simp [RelayState.step, hp] at hstep
    subst hstep
    exact hd
  | stop =>
    cases hp : s.point <;> simp [RelayState.step, hp] at hstep
    obtain ⟨-, hs⟩ := hstep
    subst hs
    exact hd
  | closeDone => simp [RelayState.step, hd] at hstep

/-- Once closed, `done` stays closed. -/
theorem RelayState.run_done {ε : Type} (moves : List (RelayMove ε)) :
    ∀ (s s' : RelayState ε), s.done = true → s.run moves = some s' → s'.done = true := by
  induction moves with
  | nil =>
    intro s s' hd hrun
    simp only [RelayState.run, Option.some.injEq] at hrun
    exact hrun ▸ hd
  | cons m ms ih =>
    intro s s' hd hrun
    simp only [RelayState.run] at hrun
    cases hstep : s.step m with
    | none => simp [hstep] at hrun
    | some s1 =>
      simp only [hstep, Option.some_bind] at hrun
      exact ih s1 s' (RelayState.step_done s s1 m hd hstep) hrun

/-- Past its `return`, with `done` closed, the relay has no move: in particular no send of
a backend completes. -/
theorem RelayState.step_exited {ε : Type} (s : RelayState ε) (m : RelayMove ε)
    (hp : s.point = .exited) (hd : s.done = true) : s.step m = none := by
  cases m <;> simp [RelayState.step, hp, hd]

/-- Past its `return`, with `done` closed, the only run of the relay is the empty one. -/
theorem RelayState.run_exited {ε : Type} (s s' : RelayState ε) (moves : List (RelayMove ε))
    (hp : s.point = .exited) (hd : s.done = true) (hrun : s.run moves = some s') :
    moves = [] ∧ s' = s := by
  cases moves with
  | nil =>
    simp only [RelayState.run, Option.some.injEq] at hrun
    exact ⟨rfl, hrun.symm⟩
  | cons m ms =>
    simp [RelayState.run, RelayState.step_exited s m hp hd] at hrun

/-- C11 as stated fails: `Disable` returns on a fresh wrapper (the relay is at its
`select`, `done` is closed, nothing is published); then the container backend, a mock
that its `Disable` does not silence, writes event 7, the `select` takes that case instead
of `<-tew.done`, and the relay publishes the event: the outward channel holds 7. -/
theorem Disable_late_event_counterexample :
    taskEngineWrapper.Disable (fun r => Outcome.returned r) processTaskEngine.Disable
        sampleWrapper (RelayState.initial Nat) = .returned (sampleWrapper, disabledRelay) ∧
      disabledRelay.done = true ∧
      disabledRelay.outward = [] ∧
      (disabledRelay.run lateMoves).map RelayState.outward = some [(Source.docker, 7)] := by
  refine ⟨rfl, rfl, rfl, ?_⟩
  decide

/-- C11, amended: `Disable` disables the container backend, then the process backend,
then closes `done`, and relays nothing itself.  From then on `done` stays closed, so
that whenever the relay is at its `select` it can take the case `<-tew.done` and return,
publishing nothing on the way.  Once the relay has returned it has no move left: no send
of a backend on its event channel completes any more and the outward channel receives
no further event.  Nothing is said about the events written between the return of
`Disable` and the return of the relay. -/
theorem Disable_then_stop_silences_relay {δ π ε : Type} (dockerDisable : δ → Outcome δ)
    (processDisable : π → Outcome π) (tew tew1 : taskEngineWrapper δ π)
    (s0 s1 s2 : RelayState ε) (mid : List (RelayMove ε))
    (hdis : taskEngineWrapper.Disable dockerDisable processDisable tew s0 =
      .returned (tew1, s1))
    (hmid : s1.run mid = some s2) :
    (dockerDisable tew.dockerTaskEngine = .returned tew1.dockerTaskEngine ∧
      processDisable tew.processTaskEngine = .returned tew1.processTaskEngine) ∧
    (s1.done = true ∧ s1.point = s0.point ∧ s1.outward = s0.outward ∧
      s1.delivered = s0.delivered) ∧
    s2.done = true ∧
    (s2.point = .selecting →
      ∃ s3, s2.step .stop = some s3 ∧ s3.point = .exited ∧ s3.outward = s2.outward) ∧
    (s2.point = .exited →
      (∀ m, s2.step m = none) ∧
        ∀ post s4, s2.run post = some s4 → post = [] ∧ s4.outward = s2.outward) := by
  unfold taskEngineWrapper.Disable at hdis
  cases hd : dockerDisable tew.dockerTaskEngine with
  | panicked msg => simp [hd, Outcome.andThen] at hdis
  | returned d =>
    cases hp : processDisable tew.processTaskEngine with
    | panicked msg => simp [hd, hp, Outcome.andThen] at hdis
    | returned p =>
      simp only [hd, hp, Outcome.andThen, RelayState.step] at hdis
      split at hdis
      · rename_i closed hclosed
        split at hclosed
        · simp at hclosed
        · simp only [Option.some.injEq] at hclosed
          simp only [Outcome.returned.injEq, Prod.mk.injEq] at hdis
          obtain ⟨htew, hs1⟩ := hdis
          subst hclosed
          subst hs1
          subst htew
          have hdone2 : s2.done = true := RelayState.run_done mid _ s2 rfl hmid
          refine ⟨⟨rfl, rfl⟩, ⟨rfl, rfl, rfl, rfl⟩, hdone2, ?_, ?_⟩
          · intro hsel
            exact ⟨{ s2 with point := .exited }, by simp [RelayState.step, hsel, hdone2],
              rfl, rfl⟩
          · intro hex
            refine ⟨fun m => RelayState.step_exited s2 m hex hdone2, ?_⟩
            intro post s4 hpost
            obtain ⟨h1, h2⟩ := RelayState.run_exited s2 s4 post hex hdone2 hpost
            exact ⟨h1, h2 ▸ rfl⟩
      · simp at hdis

/-- C11, amended, on a fresh wrapper: `Disable` returns, the relay still passes event 7
of the container backend on, then takes the case `<-tew.done`; from there on it has no
move and the outward channel keeps its single event. -/
theorem Disable_then_stop_silences_relay_witness :
    taskEngineWrapper.Disable (fun r => Outcome.returned r) processTaskEngine.Disable
        sampleWrapper (RelayState.initial Nat) = .returned (sampleWrapper, disabledRelay) ∧
      disabledRelay.run lateMovesThenStop = some stoppedRelay ∧
      stoppedRelay.done = true ∧
      (∀ m, stoppedRelay.step m = none) ∧
      ∀ post s4, stoppedRelay.run post = some s4 →
        post = [] ∧ s4.outward = [(Source.docker, 7)] :=
  have hdis : taskEngineWrapper.Disable (fun r => Outcome.returned r)
      processTaskEngine.Disable sampleWrapper (RelayState.initial Nat) =
        .returned (sampleWrapper, disabledRelay) := rfl
  have hmid : disabledRelay.run lateMovesThenStop = some stoppedRelay := by
    simp [lateMovesThenStop, disabledRelay, stoppedRelay, RelayState.run, RelayState.step]
  ⟨hdis, hmid,
    (Disable_then_stop_silences_relay (fun r => Outcome.returned r)
      processTaskEngine.Disable sampleWrapper sampleWrapper (RelayState.initial Nat)
      disabledRelay stoppedRelay lateMovesThenStop hdis hmid).2.2.1,
    ((Disable_then_stop_silences_relay (fun r => Outcome.returned r)
      processTaskEngine.Disable sampleWrapper sampleWrapper (RelayState.initial Nat)
      disabledRelay stoppedRelay lateMovesThenStop hdis hmid).2.2.2.2 rfl).1,
    ((Disable_then_stop_silences_relay (fun r => Outcome.returned r)
      processTaskEngine.Disable sampleWrapper sampleWrapper (RelayState.initial Nat)
      disabledRelay stoppedRelay lateMovesThenStop hdis hmid).2.2.2.2 rfl).2⟩

end Engine

/-! # Properties of the installer -/

namespace DaemonManager

open Go Samples

/-! ## Effect of the system calls on the tree -/

/-- The call `os.MkdirAll` changes a node only by creating a directory on the way to its
argument where nothing was. -/
theorem osMkdirAll_effect (fs fs1 : FS) (p : Path) (fault : Fault) (r : Option Error)
    (h : osMkdirAll fs p fault = (r, fs1)) (q : Path) :
    fs1 q = fs q ∨ (q <+: p ∧ fs q = none ∧ fs1 q = some Node.dir) := by
  unfold osMkdirAll at h
  split at h
  · simp only [Prod.mk.injEq] at h
    exact Or.inl (h.2 ▸ rfl)
  · split at h
    · simp only [Prod.mk.injEq] at h
      rw [← h.2]
      by_cases hq : q <+: p ∧ fs q = none
      · exact Or.inr ⟨hq.1, hq.2, by simp [hq]⟩
      · exact Or.inl (by simp only [hq, if_false])
    · simp only [Prod.mk.injEq] at h
      exact Or.inl (h.2 ▸ rfl)

/-- A failed `os.MkdirAll` leaves the tree as it was. -/
theorem osMkdirAll_error (fs fs1 : FS) (p : Path) (fault : Fault) (err : Error)
    (h : osMkdirAll fs p fault = (some err, fs1)) : fs1 = fs := by
  unfold osMkdirAll at h
  split at h
  · simp only [Prod.mk.injEq] at h
    exact h.2.symm
  · split at h
    · simp at h
    · simp only [Prod.mk.injEq] at h
      exact h.2.symm

/-- What a successful `os.OpenFile` found and left at its argument. -/
theorem osOpenFile_ok (fs fs1 : FS) (p : Path) (mode : Nat) (fault : Fault)
    (h : osOpenFile fs p mode fault = (none, fs1)) :
    fault ≠ Fault.refuse ∧
      ((fs p = none ∧ fs1 = fs.set p (Node.file mode [])) ∨
        ((∃ m c, fs p = some (Node.file m c)) ∧ fs1 = fs) ∨
        (fs p = some Node.irregular ∧ fs1 = fs)) := by
  unfold osOpenFile at h
  split at h
  · simp at h
  · rename_i hf
    refine ⟨hf, ?_⟩
    split at h
    · rename_i h1 h2
      simp only [Prod.mk.injEq, true_and] at h
      exact Or.inl ⟨h2, h.symm⟩
    · rename_i m c h1 h2
      simp only [Prod.mk.injEq, true_and] at h
      exact Or.inr (Or.inl ⟨⟨m, c, h2⟩, h.symm⟩)
    · rename_i h1 h2
      simp only [Prod.mk.injEq, true_and] at h
      exact Or.inr (Or.inr ⟨h2, h.symm⟩)
    · simp at h
    · simp at h

/-- The call `os.OpenFile` changes no node but the one at its argument. -/
theorem osOpenFile_frame (fs fs1 : FS) (p : Path) (mode : Nat) (fault : Fault)
    (r : Option Error) (h : osOpenFile fs p mode fault = (r, fs1)) (q : Path) (hq : q ≠ p) :
    fs1 q = fs q := by
  unfold osOpenFile at h
  split at h
  · simp only [Prod.mk.injEq] at h
    exact h.2 ▸ rfl
  · split at h <;> simp only [Prod.mk.injEq] at h <;> rw [← h.2]
    simp [FS.set, hq]

/-- A failed `os.OpenFile` leaves the tree as it was. -/
theorem osOpenFile_error (fs fs1 : FS) (p : Path) (mode : Nat) (fault : Fault) (err : Error)
    (h : osOpenFile fs p mode fault = (some err, fs1)) : fs1 = fs := by
  unfold osOpenFile at h
  split at h
  · simp only [Prod.mk.injEq] at h
    exact h.2.symm
  · split at h <;> simp only [Prod.mk.injEq] at h <;> first | exact h.2.symm | simp at h

/-- Writing through a descriptor changes no node but the one it is open on. -/
theorem writeAt_frame (fs : FS) (p : Path) (written : Bytes) (q : Path) (hq : q ≠ p) :
    writeAt fs p written q = fs q := by
  unfold writeAt
  cases h : fs p with
  | none => rfl
  | some n =>
    cases n with
    | dir => rfl
    | file mode old => simp [FS.set, hq]
    | irregular => rfl

/-- The call `io.Copy` changes no node but the one the descriptor is open on. -/
theorem ioCopy_frame (fs fs1 : FS) (p : Path) (body : Bytes) (readError : Option Error)
    (fault : Fault) (r : Option Error) (h : ioCopy fs p body readError fault = (r, fs1))
    (q : Path) (hq : q ≠ p) : fs1 q = fs q := by
  unfold ioCopy at h
  split at h
  · simp only [Prod.mk.injEq] at h
    rw [← h.2]
    exact writeAt_frame fs p _ q hq
  · split at h <;> simp only [Prod.mk.injEq] at h <;> rw [← h.2] <;>
      exact writeAt_frame fs p _ q hq

/-- A successful `io.Copy` has written the whole body. -/
theorem ioCopy_ok (fs fs1 : FS) (p : Path) (body : Bytes) (readError : Option Error)
    (fault : Fault) (h : ioCopy fs p body readError fault = (none, fs1)) :
    fs1 = writeAt fs p body := by
  unfold ioCopy at h
  split at h
  · simp at h
  · split at h
    · simp at h
    · simp only [Prod.mk.injEq, true_and] at h
      exact h.symm

/-- The call `os.Create` changes no node but the one at its argument. -/
theorem osCreate_frame (fs fs1 : FS) (p : Path) (fault : Fault) (r : Option Error)
    (h : osCreate fs p fault = (r, fs1)) (q : Path) (hq : q ≠ p) : fs1 q = fs q := by
  unfold osCreate at h
  split at h
  · simp only [Prod.mk.injEq] at h
    exact h.2 ▸ rfl
  · split at h <;> simp only [Prod.mk.injEq] at h <;> rw [← h.2] <;> simp [FS.set, hq]

/-- A failed `os.Create` leaves the tree as it was. -/
theorem osCreate_error (fs fs1 : FS) (p : Path) (fault : Fault) (err : Error)
    (h : osCreate fs p fault = (some err, fs1)) : fs1 = fs := by
  unfold osCreate at h
  split at h
  · simp only [Prod.mk.injEq] at h
    exact h.2.symm
  · split at h <;> simp only [Prod.mk.injEq] at h <;> first | exact h.2.symm | simp at h

/-- After a successful `os.Create` the node at its argument is not a directory; it is an
empty regular file unless an irregular node was there before. -/
theorem osCreate_ok (fs fs1 : FS) (p : Path) (fault : Fault)
    (h : osCreate fs p fault = (none, fs1)) :
    (∃ mode, fs1 p = some (Node.file mode [])) ∨
      (fs p = some Node.irregular ∧ fs1 p = some Node.irregular) := by
  unfold osCreate at h
  split at h
  · simp at h
  · split at h
    · simp only [Prod.mk.injEq, true_and] at h
      exact Or.inl ⟨0o666, by simp [← h, FS.set]⟩
    · rename_i mode _ _ _
      simp only [Prod.mk.injEq, true_and] at h
      exact Or.inl ⟨mode, by simp [← h, FS.set]⟩
    · rename_i h1 h2
      simp only [Prod.mk.injEq, true_and] at h
      exact Or.inr ⟨h2, h ▸ h2⟩
    · simp at h
    · simp at h

/-! ## Effect of one entry -/

/-- One entry changes a node in one of two ways only: a directory entry creates a
directory on the way to its target where nothing was, and a regular-file entry may change
the node at its target. -/
theorem extractEntry_effect (dm : daemonManager) (nm : Naming) (e : Entry) (fault : Fault)
    (fs fs1 : FS) (r : Outcome (Option Error))
    (h : dm.extractEntry nm e fault fs = (r, fs1)) (q : Path) :
    fs1 q = fs q ∨
      (e.header.Typeflag = Typeflag.TypeDir ∧ q <+: dm.targetPath nm e ∧ fs q = none ∧
        fs1 q = some Node.dir) ∨
      (e.header.Typeflag = Typeflag.TypeReg ∧ q = dm.targetPath nm e) := by
  unfold daemonManager.extractEntry at h
  cases ht : e.header.Typeflag with
  | TypeDir =>
    simp only [ht] at h
    cases hs : osStat fs (dm.targetPath nm e) with
    | ok i =>
      simp only [hs, Prod.mk.injEq] at h
      exact Or.inl (h.2 ▸ rfl)
    | error err =>
      simp only [hs] at h
      cases hm : osMkdirAll fs (dm.targetPath nm e) fault with
      | mk r1 fs2 =>
        have heff := osMkdirAll_effect fs fs2 _ fault r1 hm q
        cases r1 <;> simp only [hm, Prod.mk.injEq] at h <;> rw [← h.2] <;>
          rcases heff with h1 | h1
        · exact Or.inl h1
        · exact Or.inr (Or.inl ⟨rfl, h1⟩)
        · exact Or.inl h1
        · exact Or.inr (Or.inl ⟨rfl, h1⟩)
  | TypeReg =>
    simp only [ht] at h
    by_cases hq : q = dm.targetPath nm e
    · exact Or.inr (Or.inr ⟨rfl, hq⟩)
    · left
      cases ho : osOpenFile fs (dm.targetPath nm e) e.header.Mode fault with
      | mk r1 fs2 =>
        have hfo := osOpenFile_frame fs fs2 _ _ fault r1 ho q hq
        cases r1 with
        | some err =>
          simp only [ho, Prod.mk.injEq] at h
          rw [← h.2]
          exact hfo
        | none =>
          simp only [ho] at h
          cases hc : ioCopy fs2 (dm.targetPath nm e) e.body e.readError fault with
          | mk r2 fs3 =>
            have hfc := ioCopy_frame fs2 fs3 _ _ _ fault r2 hc q hq
            cases r2 <;> simp only [hc, Prod.mk.injEq] at h <;> rw [← h.2, hfc, hfo]
  | other flag =>
    simp only [ht, Prod.mk.injEq] at h
    exact Or.inl (h.2 ▸ rfl)

/-- A regular-file entry extracted without error leaves at its target a regular file
holding the entry's bytes, provided the target held no irregular node and no regular file
longer than the entry before. -/
theorem extractEntry_regular_content (dm : daemonManager) (nm : Naming) (e : Entry) (fault : Fault)
    (fs fs1 : FS) (ht : e.header.Typeflag = Typeflag.TypeReg)
    (hold : ∀ n, fs (dm.targetPath nm e) = some n →
      n = Node.dir ∨ ∃ m c, n = Node.file m c ∧ c.length ≤ e.body.length)
    (h : dm.extractEntry nm e fault fs = (.returned none, fs1)) :
    ∃ mode, fs1 (dm.targetPath nm e) = some (Node.file mode e.body) := by
  unfold daemonManager.extractEntry at h
  simp only [ht] at h
  cases ho : osOpenFile fs (dm.targetPath nm e) e.header.Mode fault with
  | mk r1 fs2 =>
    cases r1 with
    | some err => simp [ho] at h
    | none =>
      simp only [ho] at h
      cases hc : ioCopy fs2 (dm.targetPath nm e) e.body e.readError fault with
      | mk r2 fs3 =>
        cases r2 with
        | some err => simp [hc] at h
        | none =>
          simp only [hc, Prod.mk.injEq, true_and] at h
          subst h
          have hw := ioCopy_ok fs2 fs3 _ _ _ fault hc
          obtain ⟨-, hopen⟩ := osOpenFile_ok fs fs2 _ _ fault ho
          rcases hopen with ⟨hnone, hfs2⟩ | ⟨⟨m, c, hfile⟩, hfs2⟩ | ⟨hirr, -⟩
          · refine ⟨e.header.Mode, ?_⟩
            rw [hw, hfs2]
            simp [writeAt, FS.set, overwrite]
          · refine ⟨m, ?_⟩
            rcases hold _ hfile with hd | ⟨m', c', hn, hlen⟩
            · cases hd
            · simp only [Option.some.injEq, Node.file.injEq] at hn
              rw [hw, hfs2]
              simp [writeAt, hfile, FS.set, overwrite, hn.2, List.drop_eq_nil_of_le hlen]
          · rcases hold _ hirr with hd | ⟨m', c', hn, -⟩
            · cases hd
            · cases hn

/-! ## Effect of the loop -/

/-- The loop at an entry either stops there with the result of the entry, or goes on
from the tree the entry left. -/
theorem extractFrom_cons_cases (dm : daemonManager) (nm : Naming) (ending : Option Error)
    (e : Entry) (es : List Entry) (faults : List Fault) (fs : FS)
    (r : Outcome (Option Error) × FS)
    (h : dm.extractFrom nm ending (e :: es) faults fs = r) :
    (dm.extractEntry nm e (faults.headD Fault.none) fs = r ∧ r.1 ≠ .returned none) ∨
      ∃ fs1, dm.extractEntry nm e (faults.headD Fault.none) fs = (.returned none, fs1) ∧
        dm.extractFrom nm ending es faults.tail fs1 = r := by
  unfold daemonManager.extractFrom at h
  cases he : dm.extractEntry nm e (faults.headD Fault.none) fs with
  | mk r1 fs1 =>
    cases r1 with
    | panicked msg =>
      simp only [he] at h
      exact Or.inl ⟨h, by rw [← h]; simp⟩
    | returned o =>
      cases o with
      | some err =>
        simp only [he] at h
        exact Or.inl ⟨h, by rw [← h]; simp⟩
      | none =>
        simp only [he] at h
        exact Or.inr ⟨fs1, rfl, h⟩

/-- An entry that spares the marker leaves the node at the marker path as it was. -/
theorem extractEntry_spares_marker (dm : daemonManager) (nm : Naming) (e : Entry) (fault : Fault)
    (fs fs1 : FS) (r : Outcome (Option Error)) (hsafe : dm.SparesMarker nm e)
    (h : dm.extractEntry nm e fault fs = (r, fs1)) :
    fs1 (dm.destinationDirMarkerPath nm) = fs (dm.destinationDirMarkerPath nm) := by
  rcases extractEntry_effect dm nm e fault fs fs1 r h (dm.destinationDirMarkerPath nm) with
    h1 | ⟨ht, hpre, -, -⟩ | ⟨ht, heq⟩
  · exact h1
  · exact absurd hpre (hsafe.2 ht)
  · exact absurd heq.symm (hsafe.1 ht)

/-- The loop and the marker step over entries that spare the marker: unless the result
is success, the node at the marker path is as it was. -/
theorem extractFrom_spares_marker (dm : daemonManager) (nm : Naming) (ending : Option Error) :
    ∀ (es : List Entry) (faults : List Fault) (fs fs1 : FS) (r : Outcome (Option Error)),
      (∀ e ∈ es, dm.SparesMarker nm e) → r ≠ .returned none →
      dm.extractFrom nm ending es faults fs = (r, fs1) →
      fs1 (dm.destinationDirMarkerPath nm) = fs (dm.destinationDirMarkerPath nm) := by
  intro es
  induction es with
  | nil =>
    intro faults fs fs1 r _ hr h
    unfold daemonManager.extractFrom at h
    cases ending with
    | some err =>
      simp only [Prod.mk.injEq] at h
      exact h.2 ▸ rfl
    | none =>
      simp only [daemonManager.writeMarker] at h
      cases hc : osCreate fs (dm.destinationDirMarkerPath nm) (faults.headD Fault.none) with
      | mk r1 fs2 =>
        cases r1 with
        | some err =>
          simp only [hc, Prod.mk.injEq] at h
          rw [← h.2, osCreate_error fs fs2 _ _ err hc]
        | none =>
          simp only [hc, Prod.mk.injEq] at h
          exact absurd h.1.symm hr
  | cons e es ih =>
    intro faults fs fs1 r hsafe hr h
    rcases extractFrom_cons_cases dm nm ending e es faults fs (r, fs1) h with
      ⟨he, -⟩ | ⟨fs2, he, hrest⟩
    · exact extractEntry_spares_marker dm nm e _ fs fs1 r (hsafe e (by simp)) he
    · rw [ih faults.tail fs2 fs1 r (fun e' he' => hsafe e' (by simp [he'])) hr hrest]
      exact extractEntry_spares_marker dm nm e _ fs fs2 _ (hsafe e (by simp)) he

/-- The regular targets of a list of entries, by its first entry. -/
theorem regularTargets_cons (dm : daemonManager) (nm : Naming) (e : Entry) (es : List Entry) :
    dm.regularTargets nm (e :: es) =
      if e.header.Typeflag = Typeflag.TypeReg then dm.targetPath nm e :: dm.regularTargets nm es
      else dm.regularTargets nm es := by
  unfold daemonManager.regularTargets
  by_cases h : e.header.Typeflag = Typeflag.TypeReg <;> simp [List.filter_cons, h]

/-- An entry that is not a regular file aimed at the marker path leaves there nothing
or a directory, if nothing or a directory was there. -/
theorem extractEntry_keeps_marker_fileless (dm : daemonManager) (nm : Naming) (e : Entry)
    (fault : Fault) (fs fs1 : FS) (r : Outcome (Option Error))
    (hreg : e.header.Typeflag = Typeflag.TypeReg →
      dm.targetPath nm e ≠ dm.destinationDirMarkerPath nm)
    (hm : fs (dm.destinationDirMarkerPath nm) = none ∨
      fs (dm.destinationDirMarkerPath nm) = some Node.dir)
    (h : dm.extractEntry nm e fault fs = (r, fs1)) :
    fs1 (dm.destinationDirMarkerPath nm) = none ∨
      fs1 (dm.destinationDirMarkerPath nm) = some Node.dir := by
  rcases extractEntry_effect dm nm e fault fs fs1 r h (dm.destinationDirMarkerPath nm) with
    h1 | ⟨-, -, -, h3⟩ | ⟨ht, heq⟩
  · rw [h1]
    exact hm
  · exact Or.inr h3
  · exact absurd heq.symm (hreg ht)

/-- The loop and the marker step over entries none of which is a regular file aimed at
the marker path: unless the result is success, the marker path holds nothing or a
directory afterwards, if it did before. -/
theorem extractFrom_keeps_marker_fileless (dm : daemonManager) (nm : Naming)
    (ending : Option Error) :
    ∀ (es : List Entry) (faults : List Fault) (fs fs1 : FS) (r : Outcome (Option Error)),
      dm.destinationDirMarkerPath nm ∉ dm.regularTargets nm es → r ≠ .returned none →
      (fs (dm.destinationDirMarkerPath nm) = none ∨
        fs (dm.destinationDirMarkerPath nm) = some Node.dir) →
      dm.extractFrom nm ending es faults fs = (r, fs1) →
      fs1 (dm.destinationDirMarkerPath nm) = none ∨
        fs1 (dm.destinationDirMarkerPath nm) = some Node.dir := by
  intro es
  induction es with
  | nil =>
    intro faults fs fs1 r _ hr hm h
    unfold daemonManager.extractFrom at h
    cases ending with
    | some err =>
      simp only [Prod.mk.injEq] at h
      rw [← h.2]
      exact hm
    | none =>
      simp only [daemonManager.writeMarker] at h
      cases hc : osCreate fs (dm.destinationDirMarkerPath nm) (faults.headD Fault.none) with
      | mk r1 fs2 =>
        cases r1 with
        | some err =>
          simp only [hc, Prod.mk.injEq] at h
          rw [← h.2, osCreate_error fs fs2 _ _ err hc]
          exact hm
        | none =>
          simp only [hc, Prod.mk.injEq] at h
          exact absurd h.1.symm hr
  | cons e es ih =>
    intro faults fs fs1 r hmem hr hm h
    rw [regularTargets_cons] at hmem
    have hreg : e.header.Typeflag = Typeflag.TypeReg →
        dm.targetPath nm e ≠ dm.destinationDirMarkerPath nm := by
      intro ht heq
      rw [if_pos ht] at hmem
      exact hmem (by simp [heq])
    have hrest : dm.destinationDirMarkerPath nm ∉ dm.regularTargets nm es := by
      intro hin
      apply hmem
      split
      · exact List.mem_cons_of_mem _ hin
      · exact hin
    rcases extractFrom_cons_cases dm nm ending e es faults fs (r, fs1) h with
      ⟨he, -⟩ | ⟨fs2, he, hloop⟩
    · exact extractEntry_keeps_marker_fileless dm nm e _ fs fs1 r hreg hm he
    · exact ih faults.tail fs2 fs1 r hrest hr
        (extractEntry_keeps_marker_fileless dm nm e _ fs fs2 _ hreg hm he) hloop

/-- C3, amended: let the marker be absent, and let no regular-file entry of the archive
have the marker path as its target, whatever way path strings name files.  If
`writeTarToDestinationDir` returns an error, whichever it is (the archive cannot be
opened, a header cannot be read, a directory or a file cannot be created, a copy fails,
the marker cannot be created), then `IsLoaded` answers false without error and there is
no marker file: the marker path holds nothing or a directory.  It holds nothing if,
besides, no directory entry has the marker path or a path below it as its target. -/
theorem writeTar_error_leaves_marker_absent (dm : daemonManager) (nm : Naming)
    (tar : Except Error Archive) (faults : List Fault) (fs fs1 : FS) (err : Error)
    (habsent : fs (dm.destinationDirMarkerPath nm) = none)
    (hreg : ∀ archive, tar = .ok archive →
      dm.destinationDirMarkerPath nm ∉ dm.regularTargets nm archive.entries)
    (hrun : dm.writeTarToDestinationDir nm tar faults fs = (.returned (some err), fs1)) :
    dm.IsLoaded nm (osStat fs1) = (false, none) ∧
      (fs1 (dm.destinationDirMarkerPath nm) = none ∨
        fs1 (dm.destinationDirMarkerPath nm) = some Node.dir) ∧
      ((∀ archive, tar = .ok archive → ∀ e ∈ archive.entries,
          e.header.Typeflag = Typeflag.TypeDir →
            ¬ dm.destinationDirMarkerPath nm <+: dm.targetPath nm e) →
        fs1 (dm.destinationDirMarkerPath nm) = none) := by
  unfold daemonManager.writeTarToDestinationDir at hrun
  cases tar with
  | error e0 =>
    simp only [Prod.mk.injEq] at hrun
    have hm : fs1 (dm.destinationDirMarkerPath nm) = none := hrun.2 ▸ habsent
    exact ⟨by simp [daemonManager.IsLoaded, osStat, hm], Or.inl hm, fun _ => hm⟩
  | ok archive =>
    simp only at hrun
    have hm := extractFrom_keeps_marker_fileless dm nm archive.ending archive.entries faults
      fs fs1 _ (hreg archive rfl) (by simp) (Or.inl habsent) hrun
    refine ⟨?_, hm, ?_⟩
    · rcases hm with h0 | h0 <;>
        simp [daemonManager.IsLoaded, osStat, h0, Node.info, FileInfo.IsDir]
    · intro hdir
      have hspare : ∀ e ∈ archive.entries, dm.SparesMarker nm e := by
        intro e he
        refine ⟨fun ht heq => hreg archive rfl ?_, hdir archive rfl e he⟩
        unfold daemonManager.regularTargets
        exact List.mem_map.mpr ⟨e, List.mem_filter.mpr ⟨he, by simp [ht]⟩, heq⟩
      rw [extractFrom_spares_marker dm nm archive.ending archive.entries faults fs fs1 _
        hspare (by simp) hrun]
      exact habsent

/-- Under the sample naming, a name in upper case and a name that goes up with `..` and
comes back reach the marker, and two names that differ in case only reach one file. -/
theorem driveNaming_aliases :
    driveNaming.join sampleManager.tarPathToDestinationDir "INSTALLED.MARKER" =
        sampleManager.destinationDirMarkerPath driveNaming ∧
      driveNaming.join sampleManager.tarPathToDestinationDir
          "../../../daemons/ebs/installed.marker" =
        sampleManager.destinationDirMarkerPath driveNaming ∧
      driveNaming.join sampleManager.tarPathToDestinationDir "APP.CONF" =
        driveNaming.join sampleManager.tarPathToDestinationDir "app.conf" := by
  decide

/-- C3 as stated fails: the marker is absent, the archive's first entry is a regular
file named `installed.marker`, and its second entry is a file in a directory that does
not exist.  `writeTarToDestinationDir` returns an error at the second entry, and the
marker path then holds the regular file written by the first: `IsLoaded` answers true.
The same happens when the first entry reaches the marker under another name. -/
theorem writeTar_error_marker_counterexample :
    (emptyInstallDir (sampleManager.destinationDirMarkerPath driveNaming) = none ∧
      (sampleManager.writeTarToDestinationDir driveNaming (.ok archiveNamingMarker) []
          emptyInstallDir).1 =
        .returned (some ("failed to create file in ManagedDaemon install path: " ++
          "The system cannot find the path specified.")) ∧
      (sampleManager.writeTarToDestinationDir driveNaming (.ok archiveNamingMarker) []
          emptyInstallDir).2 (sampleManager.destinationDirMarkerPath driveNaming) =
        some (Node.file 0o644 [1]) ∧
      sampleManager.IsLoaded driveNaming (osStat
          (sampleManager.writeTarToDestinationDir driveNaming (.ok archiveNamingMarker) []
            emptyInstallDir).2) = (true, none)) ∧
    ((sampleManager.writeTarToDestinationDir driveNaming (.ok archiveAliasingMarker) []
          emptyInstallDir).1 =
        .returned (some ("failed to create file in ManagedDaemon install path: " ++
          "The system cannot find the path specified.")) ∧
      sampleManager.IsLoaded driveNaming (osStat
          (sampleManager.writeTarToDestinationDir driveNaming (.ok archiveAliasingMarker) []
            emptyInstallDir).2) = (true, none)) := by
  decide

/-- C3, amended, on two archives that fail at a file in a directory no entry creates.
The first has no entry near the marker: the marker path holds nothing afterwards.  The
second has a directory entry named like the marker: the marker path holds a directory
afterwards.  `IsLoaded` answers false for both. -/
theorem writeTar_error_leaves_marker_absent_witness :
    (emptyInstallDir (sampleManager.destinationDirMarkerPath driveNaming) = none ∧
      sampleManager.destinationDirMarkerPath driveNaming ∉
        sampleManager.regularTargets driveNaming archiveMissingDir.entries ∧
      sampleManager.IsLoaded driveNaming (osStat
          (sampleManager.writeTarToDestinationDir driveNaming (.ok archiveMissingDir) []
            emptyInstallDir).2) = (false, none) ∧
      (sampleManager.writeTarToDestinationDir driveNaming (.ok archiveMissingDir) []
          emptyInstallDir).2 (sampleManager.destinationDirMarkerPath driveNaming) = none) ∧
    (sampleManager.destinationDirMarkerPath driveNaming ∉
        sampleManager.regularTargets driveNaming archiveMarkerDir.entries ∧
      sampleManager.IsLoaded driveNaming (osStat
          (sampleManager.writeTarToDestinationDir driveNaming (.ok archiveMarkerDir) []
            emptyInstallDir).2) = (false, none) ∧
      (sampleManager.writeTarToDestinationDir driveNaming (.ok archiveMarkerDir) []
          emptyInstallDir).2 (sampleManager.destinationDirMarkerPath driveNaming) =
        some Node.dir) :=
  have habsent :
      emptyInstallDir (sampleManager.destinationDirMarkerPath driveNaming) = none := by
    decide
  have hreg1 : sampleManager.destinationDirMarkerPath driveNaming ∉
      sampleManager.regularTargets driveNaming archiveMissingDir.entries := by decide
  have hreg2 : sampleManager.destinationDirMarkerPath driveNaming ∉
      sampleManager.regularTargets driveNaming archiveMarkerDir.entries := by decide
  have hdir : ∀ e ∈ archiveMissingDir.entries, e.header.Typeflag = Typeflag.TypeDir →
      ¬ sampleManager.destinationDirMarkerPath driveNaming <+:
        sampleManager.targetPath driveNaming e := by decide
  have h1 := writeTar_error_leaves_marker_absent sampleManager driveNaming
    (.ok archiveMissingDir) [] emptyInstallDir
    (sampleManager.writeTarToDestinationDir driveNaming (.ok archiveMissingDir) []
      emptyInstallDir).2
    ("failed to create file in ManagedDaemon install path: " ++
      "The system cannot find the path specified.")
    habsent
    (fun archive h => by
      simp only [Except.ok.injEq] at h
      exact h ▸ hreg1)
    (Prod.ext (by decide) rfl)
  have h2 := writeTar_error_leaves_marker_absent sampleManager driveNaming
    (.ok archiveMarkerDir) [] emptyInstallDir
    (sampleManager.writeTarToDestinationDir driveNaming (.ok archiveMarkerDir) []
      emptyInstallDir).2
    ("failed to create file in ManagedDaemon install path: " ++
      "The system cannot find the path specified.")
    habsent
    (fun archive h => by
      simp only [Except.ok.injEq] at h
      exact h ▸ hreg2)
    (Prod.ext (by decide) rfl)
  ⟨⟨habsent, hreg1, h1.1,
      h1.2.2 (fun archive h e he ht => by
        simp only [Except.ok.injEq] at h
        subst h
        exact hdir e he ht)⟩,
    ⟨hreg2, h2.1, by decide⟩⟩

/-! ## `IsLoaded` -/

/-- C9 as stated fails: with a node at the marker path that is neither a directory nor a
regular file, `IsLoaded` answers true. -/
theorem IsLoaded_irregular_counterexample :
    irregularMarker (sampleManager.destinationDirMarkerPath driveNaming) = some Node.irregular ∧
      Node.irregular.info.isRegular = false ∧
      sampleManager.IsLoaded driveNaming (osStat irregularMarker) = (true, none) := by
  decide

/-- C9, amended: the marker path is the join of the archive path without its `.tar`
suffix and `installed.marker`.  `IsLoaded` never answers with an error.  It answers true
if and only if `os.Stat` on the marker path succeeds and reports something that is not a
directory; so it answers false when the call fails, for whatever reason, and when the
path is a directory.  On the directory tree: it answers true if and only if the marker
path holds a node that is not a directory. -/
theorem IsLoaded_iff_stat_not_dir (dm : daemonManager) (nm : Naming)
    (stat : Path → Except Error FileInfo) (fs : FS) :
    (dm.destinationDirMarkerPath nm) =
        nm.join (trimSuffix dm.managedDaemon.imageTarPath ".tar") "installed.marker" ∧
      (dm.IsLoaded nm stat).2 = none ∧
      ((dm.IsLoaded nm stat).1 = true ↔
        ∃ i, stat (dm.destinationDirMarkerPath nm) = .ok i ∧ i.IsDir = false) ∧
      ((dm.IsLoaded nm stat).1 = false ↔
        (∃ err, stat (dm.destinationDirMarkerPath nm) = .error err) ∨
          ∃ i, stat (dm.destinationDirMarkerPath nm) = .ok i ∧ i.IsDir = true) ∧
      ((dm.IsLoaded nm (osStat fs)).1 = true ↔
        ∃ n, fs (dm.destinationDirMarkerPath nm) = some n ∧ n ≠ Node.dir) := by
  refine ⟨rfl, ?_, ?_, ?_, ?_⟩
  · unfold daemonManager.IsLoaded
    cases stat (dm.destinationDirMarkerPath nm) <;> rfl
  · unfold daemonManager.IsLoaded
    cases stat (dm.destinationDirMarkerPath nm) <;> simp
  · unfold daemonManager.IsLoaded
    cases stat (dm.destinationDirMarkerPath nm) <;> simp
  · unfold daemonManager.IsLoaded osStat
    cases fs (dm.destinationDirMarkerPath nm) with
    | none => simp
    | some n => cases n <;> simp [Node.info, FileInfo.IsDir]

/-- The answer of `IsLoaded` on a tree whose marker path holds a node that is not a
directory. -/
theorem IsLoaded_of_not_dir (dm : daemonManager) (nm : Naming) (fs : FS) (n : Node)
    (h : fs (dm.destinationDirMarkerPath nm) = some n) (hn : n ≠ Node.dir) :
    dm.IsLoaded nm (osStat fs) = (true, none) := by
  unfold daemonManager.IsLoaded osStat
  cases n <;> simp_all [Node.info, FileInfo.IsDir]

/-! ## `LoadImage` -/

/-- After a successful run of the loop and the marker step, the marker path holds a node
that is not a directory. -/
theorem extractFrom_ok_marker (dm : daemonManager) (nm : Naming) (ending : Option Error) :
    ∀ (es : List Entry) (faults : List Fault) (fs fs1 : FS),
      dm.extractFrom nm ending es faults fs = (.returned none, fs1) →
      ∃ n, fs1 (dm.destinationDirMarkerPath nm) = some n ∧ n ≠ Node.dir := by
  intro es
  induction es with
  | nil =>
    intro faults fs fs1 h
    unfold daemonManager.extractFrom at h
    cases ending with
    | some err => simp at h
    | none =>
      simp only [daemonManager.writeMarker] at h
      cases hc : osCreate fs (dm.destinationDirMarkerPath nm) (faults.headD Fault.none) with
      | mk r1 fs2 =>
        cases r1 with
        | some err =>
          simp only [hc] at h
          simp at h
        | none =>
          simp only [hc, Prod.mk.injEq, true_and] at h
          subst h
          rcases osCreate_ok fs fs2 _ _ hc with ⟨mode, hm⟩ | ⟨-, hi⟩
          · exact ⟨_, hm, by simp⟩
          · exact ⟨_, hi, by simp⟩
  | cons e es ih =>
    intro faults fs fs1 h
    rcases extractFrom_cons_cases dm nm ending e es faults fs _ h with
      ⟨-, hne⟩ | ⟨fs2, -, hrest⟩
    · exact absurd rfl hne
    · exact ih faults.tail fs2 fs1 hrest

/-- C4: `LoadImage` is idempotent.  On a tree where `IsLoaded` answers true, `LoadImage`
succeeds and leaves the tree as it is, whatever the archive is, also when it cannot be
opened: the archive is not consulted.  Hence, when a call of `LoadImage` succeeds, a
second call on the tree it left succeeds too and leaves that tree as it is, whatever the
archive and the refusals of the operating system would be. -/
theorem LoadImage_idempotent (dm : daemonManager) (nm : Naming) (tar tar2 : Except Error Archive)
    (faults faults2 : List Fault) (kept kept2 : Path → Bool) (fs fs1 : FS) :
    (dm.IsLoaded nm (osStat fs) = (true, none) →
      dm.LoadImage nm tar faults kept fs = (.returned none, fs)) ∧
    (dm.LoadImage nm tar faults kept fs = (.returned none, fs1) →
      dm.IsLoaded nm (osStat fs1) = (true, none) ∧
        dm.LoadImage nm tar2 faults2 kept2 fs1 = (.returned none, fs1)) := by
  have hfirst : ∀ (t : Except Error Archive) (fl : List Fault) (k : Path → Bool) (g : FS),
      dm.IsLoaded nm (osStat g) = (true, none) →
        dm.LoadImage nm t fl k g = (.returned none, g) := by
    intro t fl k g hl
    simp [daemonManager.LoadImage, hl]
  refine ⟨hfirst tar faults kept fs, ?_⟩
  intro hrun
  have hloaded : dm.IsLoaded nm (osStat fs1) = (true, none) := by
    unfold daemonManager.LoadImage at hrun
    cases hl : dm.IsLoaded nm (osStat fs) with
    | mk isLoaded err =>
      cases err with
      | some e0 => simp [hl] at hrun
      | none =>
        cases isLoaded with
        | true =>
          simp only [hl, Bool.not_true, Bool.false_eq_true, if_false, Prod.mk.injEq,
            true_and] at hrun
          rw [← hrun]
          exact hl
        | false =>
          simp only [hl, Bool.not_false, if_true] at hrun
          cases hw : dm.writeTarToDestinationDir nm tar faults fs with
          | mk r fs2 =>
            cases r with
            | panicked msg => simp [hw] at hrun
            | returned o =>
              cases o with
              | some e0 => simp [hw] at hrun
              | none =>
                simp only [hw, Prod.mk.injEq, true_and] at hrun
                subst hrun
                unfold daemonManager.writeTarToDestinationDir at hw
                cases tar with
                | error e0 => simp at hw
                | ok archive =>
                  obtain ⟨n, hn, hnd⟩ :=
                    extractFrom_ok_marker dm nm archive.ending archive.entries faults fs fs2 hw
                  exact IsLoaded_of_not_dir dm nm fs2 n hn hnd
  exact ⟨hloaded, hfirst tar2 faults2 kept2 fs1 hloaded⟩

/-- C4 on the sample archive and the empty install directory: the first call extracts
and succeeds, the second call succeeds on the tree the first left, even though its
archive cannot be opened. -/
theorem LoadImage_idempotent_witness :
    (sampleManager.LoadImage driveNaming (.ok archiveConfig) [] (fun _ => false)
        emptyInstallDir).1 = .returned none ∧
      sampleManager.LoadImage driveNaming (.error "file not found") [] (fun _ => false)
          (sampleManager.LoadImage driveNaming (.ok archiveConfig) [] (fun _ => false)
            emptyInstallDir).2 =
        (.returned none,
          (sampleManager.LoadImage driveNaming (.ok archiveConfig) [] (fun _ => false)
            emptyInstallDir).2) :=
  ⟨by decide,
    ((LoadImage_idempotent sampleManager driveNaming (.ok archiveConfig)
      (.error "file not found") [] [] (fun _ => false) (fun _ => false) emptyInstallDir
      (sampleManager.LoadImage driveNaming (.ok archiveConfig) [] (fun _ => false)
        emptyInstallDir).2).2
        (Prod.ext (by decide) rfl)).2⟩

/-! ## Contents after a successful extraction -/

/-- The loop and the marker step change a node that is neither the marker nor the target
of a regular-file entry only by creating a directory where nothing was. -/
theorem extractFrom_frame (dm : daemonManager) (nm : Naming) (ending : Option Error) :
    ∀ (es : List Entry) (faults : List Fault) (fs fs1 : FS) (r : Outcome (Option Error)),
      dm.extractFrom nm ending es faults fs = (r, fs1) →
      ∀ q, q ≠ (dm.destinationDirMarkerPath nm) → q ∉ dm.regularTargets nm es →
        fs1 q = fs q ∨ (fs q = none ∧ fs1 q = some Node.dir) := by
  intro es
  induction es with
  | nil =>
    intro faults fs fs1 r h q hq _
    unfold daemonManager.extractFrom at h
    cases ending with
    | some err =>
      simp only [Prod.mk.injEq] at h
      exact Or.inl (h.2 ▸ rfl)
    | none =>
      simp only [daemonManager.writeMarker] at h
      cases hc : osCreate fs (dm.destinationDirMarkerPath nm) (faults.headD Fault.none) with
      | mk r1 fs2 =>
        have hf := osCreate_frame fs fs2 _ _ r1 hc q hq
        cases r1 <;> simp only [hc, Prod.mk.injEq] at h <;> rw [← h.2] <;> exact Or.inl hf
  | cons e es ih =>
    intro faults fs fs1 r h q hq hmem
    rw [regularTargets_cons] at hmem
    have hstep : ∀ (r2 : Outcome (Option Error)) (fs2 : FS),
        dm.extractEntry nm e (faults.headD Fault.none) fs = (r2, fs2) →
        fs2 q = fs q ∨ (fs q = none ∧ fs2 q = some Node.dir) := by
      intro r2 fs2 he
      rcases extractEntry_effect dm nm e _ fs fs2 r2 he q with
        h1 | ⟨-, -, h2, h3⟩ | ⟨ht, heq⟩
      · exact Or.inl h1
      · exact Or.inr ⟨h2, h3⟩
      · simp [ht, heq] at hmem
    have hrest : q ∉ dm.regularTargets nm es := by
      intro hin
      apply hmem
      split
      · exact List.mem_cons_of_mem _ hin
      · exact hin
    rcases extractFrom_cons_cases dm nm ending e es faults fs (r, fs1) h with
      ⟨he, -⟩ | ⟨fs2, he, hloop⟩
    · exact hstep r fs1 he
    · rcases hstep _ fs2 he with h1 | ⟨h1, h2⟩
      · rw [← h1]
        exact ih faults.tail fs2 fs1 r hloop q hq hrest
      · rcases ih faults.tail fs2 fs1 r hloop q hq hrest with h3 | ⟨h3, -⟩
        · exact Or.inr ⟨h1, h3 ▸ h2⟩
        · rw [h2] at h3
          cases h3

/-- The two ways of saying that the entry's bytes replace all that the target holds. -/
theorem leavesNoRemainder_iff (dm : daemonManager) (nm : Naming) (fs : FS) (e : Entry) :
    dm.LeavesNoRemainder nm fs e ↔
      ∀ n, fs (dm.targetPath nm e) = some n →
        n = Node.dir ∨ ∃ m c, n = Node.file m c ∧ c.length ≤ e.body.length := by
  unfold daemonManager.LeavesNoRemainder
  cases fs (dm.targetPath nm e) with
  | none => simp
  | some n =>
    cases n with
    | dir => simp
    | irregular => simp
    | file mode old =>
      simp only [Option.some.injEq, forall_eq']
      constructor
      · intro h
        exact Or.inr ⟨mode, old, rfl, h⟩
      · rintro (h | ⟨m, c, hn, h⟩)
        · cases h
        · simp only [Node.file.injEq] at hn
          exact hn.2 ▸ h

/-- After a successful run of the loop and the marker step over entries whose regular
targets are distinct, differ from the marker and hold nothing that would outlast a write,
the target of every regular-file entry holds a regular file with the entry's bytes. -/
theorem extractFrom_ok_contents (dm : daemonManager) (nm : Naming) (ending : Option Error) :
    ∀ (es : List Entry) (faults : List Fault) (fs fs1 : FS),
      (dm.regularTargets nm es).Nodup →
      (dm.destinationDirMarkerPath nm) ∉ dm.regularTargets nm es →
      (∀ e ∈ es, e.header.Typeflag = Typeflag.TypeReg → dm.LeavesNoRemainder nm fs e) →
      dm.extractFrom nm ending es faults fs = (.returned none, fs1) →
      ∀ e ∈ es, e.header.Typeflag = Typeflag.TypeReg →
        ∃ mode, fs1 (dm.targetPath nm e) = some (Node.file mode e.body) := by
  intro es
  induction es with
  | nil =>
    intro faults fs fs1 _ _ _ _ e he
    simp at he
  | cons e0 es ih =>
    intro faults fs fs1 hnodup hmarker hfit hrun e he ht
    rcases extractFrom_cons_cases dm nm ending e0 es faults fs _ hrun with
      ⟨-, hne⟩ | ⟨fs2, he0, hloop⟩
    · exact absurd rfl hne
    · rw [regularTargets_cons] at hnodup hmarker
      have hnodup1 : (dm.regularTargets nm es).Nodup := by
        split at hnodup
        · exact (List.nodup_cons.mp hnodup).2
        · exact hnodup
      have hmarker1 : (dm.destinationDirMarkerPath nm) ∉ dm.regularTargets nm es := by
        intro hin
        apply hmarker
        split
        · exact List.mem_cons_of_mem _ hin
        · exact hin
      have hfit1 : ∀ e1 ∈ es, e1.header.Typeflag = Typeflag.TypeReg →
          dm.LeavesNoRemainder nm fs2 e1 := by
        intro e1 he1 ht1
        have hold := hfit e1 (List.mem_cons_of_mem _ he1) ht1
        have hin : dm.targetPath nm e1 ∈ dm.regularTargets nm es := by
          unfold daemonManager.regularTargets
          exact List.mem_map.mpr ⟨e1, List.mem_filter.mpr ⟨he1, by simp [ht1]⟩, rfl⟩
        rcases extractEntry_effect dm nm e0 _ fs fs2 _ he0 (dm.targetPath nm e1) with
          h1 | ⟨-, -, -, h3⟩ | ⟨ht0, heq⟩
        · unfold daemonManager.LeavesNoRemainder at hold ⊢
          rw [h1]
          exact hold
        · unfold daemonManager.LeavesNoRemainder
          rw [h3]
          trivial
        · rw [if_pos ht0] at hnodup
          exact absurd (heq ▸ hin) (List.nodup_cons.mp hnodup).1
      rcases List.mem_cons.mp he with heq | hin
      · subst heq
        obtain ⟨mode, hmode⟩ := extractEntry_regular_content dm nm e _ fs fs2 ht
          ((leavesNoRemainder_iff dm nm fs e).mp (hfit e (by simp) ht)) he0
        rw [if_pos ht] at hnodup hmarker
        have hq : dm.targetPath nm e ≠ (dm.destinationDirMarkerPath nm) := by
          intro hh
          exact hmarker (by simp [hh])
        rcases extractFrom_frame dm nm ending es faults.tail fs2 fs1 _ hloop (dm.targetPath nm e) hq
          (List.nodup_cons.mp hnodup).1 with h1 | ⟨h1, -⟩
        · exact ⟨mode, h1 ▸ hmode⟩
        · rw [hmode] at h1
          cases h1
      · exact ih faults.tail fs2 fs1 hnodup1 hmarker1 hfit1 hloop e hin ht

/-- A call of `LoadImage` that succeeds on a tree without marker is a successful call of
`writeTarToDestinationDir`. -/
theorem LoadImage_ok_extracts (dm : daemonManager) (nm : Naming) (tar : Except Error Archive)
    (faults : List Fault) (kept : Path → Bool) (fs fs1 : FS)
    (habsent : fs (dm.destinationDirMarkerPath nm) = none)
    (hrun : dm.LoadImage nm tar faults kept fs = (.returned none, fs1)) :
    dm.writeTarToDestinationDir nm tar faults fs = (.returned none, fs1) := by
  have hl : dm.IsLoaded nm (osStat fs) = (false, none) := by
    simp [daemonManager.IsLoaded, osStat, habsent]
  unfold daemonManager.LoadImage at hrun
  simp only [hl, Bool.not_false, if_true] at hrun
  cases hw : dm.writeTarToDestinationDir nm tar faults fs with
  | mk r fs2 =>
    cases r with
    | panicked msg => simp [hw] at hrun
    | returned o =>
      cases o with
      | some e0 => simp [hw] at hrun
      | none =>
        simp only [hw, Prod.mk.injEq, true_and] at hrun
        rw [hrun]

/-- C2 as stated fails, in three ways.  In each the archive holds only directories and
regular files, the marker is absent at the start, and `writeTarToDestinationDir` returns
success.

* The target exists and is longer than the entry: `cfg/app.conf` holds the nine bytes
  `port=8080`, the entry holds the six bytes `port=1`, and the file holds `port=1080`
  afterwards, since the file is opened without truncation.
* Two entries name the same file, by the same name or by names that differ in case only:
  the file holds the bytes of the second, not of the first.
* An entry is named like the marker: the file is emptied when the marker is created. -/
theorem writeTar_ok_contents_counterexample :
    (staleInstallDir (sampleManager.destinationDirMarkerPath driveNaming) = none ∧
      (∀ e ∈ archiveConfig.entries,
        e.header.Typeflag = Typeflag.TypeDir ∨ e.header.Typeflag = Typeflag.TypeReg) ∧
      (sampleManager.writeTarToDestinationDir driveNaming (.ok archiveConfig) []
          staleInstallDir).1 = .returned none ∧
      (sampleManager.writeTarToDestinationDir driveNaming (.ok archiveConfig) []
          staleInstallDir).2 ["c:", "daemons", "ebs", "cfg", "app.conf"] =
        some (Node.file 0o644 [112, 111, 114, 116, 61, 49, 48, 56, 48])) ∧
    (emptyInstallDir (sampleManager.destinationDirMarkerPath driveNaming) = none ∧
      (∀ e ∈ archiveTwice.entries,
        e.header.Typeflag = Typeflag.TypeDir ∨ e.header.Typeflag = Typeflag.TypeReg) ∧
      (sampleManager.writeTarToDestinationDir driveNaming (.ok archiveTwice) []
          emptyInstallDir).1 = .returned none ∧
      (sampleManager.writeTarToDestinationDir driveNaming (.ok archiveTwice) []
          emptyInstallDir).2 ["c:", "daemons", "ebs", "app.conf"] =
        some (Node.file 0o644 [2])) ∧
    ((∀ e ∈ archiveTwiceByCase.entries,
        e.header.Typeflag = Typeflag.TypeDir ∨ e.header.Typeflag = Typeflag.TypeReg) ∧
      (sampleManager.writeTarToDestinationDir driveNaming (.ok archiveTwiceByCase) []
          emptyInstallDir).1 = .returned none ∧
      (sampleManager.writeTarToDestinationDir driveNaming (.ok archiveTwiceByCase) []
          emptyInstallDir).2 ["c:", "daemons", "ebs", "app.conf"] =
        some (Node.file 0o644 [2])) ∧
    (emptyInstallDir (sampleManager.destinationDirMarkerPath driveNaming) = none ∧
      (∀ e ∈ archiveOnlyMarker.entries,
        e.header.Typeflag = Typeflag.TypeDir ∨ e.header.Typeflag = Typeflag.TypeReg) ∧
      (sampleManager.writeTarToDestinationDir driveNaming (.ok archiveOnlyMarker) []
          emptyInstallDir).1 = .returned none ∧
      (sampleManager.writeTarToDestinationDir driveNaming (.ok archiveOnlyMarker) []
          emptyInstallDir).2 (sampleManager.destinationDirMarkerPath driveNaming) =
        some (Node.file 0o644 [])) := by
  decide

/-- C2, amended: whatever way path strings name files, let the marker be absent at the
start, let the regular-file entries of the archive have pairwise distinct targets (no
two of them name one file), none of them the marker path, and let each of these targets
hold, at the start, nothing that a write of the entry's bytes from the beginning would
leave a part of (no regular file longer than the entry, no irregular node).  If
`LoadImage` or `writeTarToDestinationDir` returns success, then afterwards `IsLoaded`
answers true and the target of every regular-file entry of the archive is a regular file
whose content is exactly the entry's bytes.  Success already implies that the archive
holds only directories and regular files. -/
theorem writeTar_ok_installs (dm : daemonManager) (nm : Naming) (archive : Archive)
    (faults : List Fault) (kept : Path → Bool) (fs fs1 : FS)
    (habsent : fs (dm.destinationDirMarkerPath nm) = none)
    (hdistinct : (dm.regularTargets nm archive.entries).Nodup)
    (hmarker : dm.destinationDirMarkerPath nm ∉ dm.regularTargets nm archive.entries)
    (hfit : ∀ e ∈ archive.entries, e.header.Typeflag = Typeflag.TypeReg →
      dm.LeavesNoRemainder nm fs e)
    (hrun : dm.LoadImage nm (.ok archive) faults kept fs = (.returned none, fs1) ∨
      dm.writeTarToDestinationDir nm (.ok archive) faults fs = (.returned none, fs1)) :
    dm.IsLoaded nm (osStat fs1) = (true, none) ∧
      ∀ e ∈ archive.entries, e.header.Typeflag = Typeflag.TypeReg →
        ∃ mode, fs1 (dm.targetPath nm e) = some (Node.file mode e.body) := by
  have hw :
      dm.writeTarToDestinationDir nm (.ok archive) faults fs = (.returned none, fs1) := by
    rcases hrun with h | h
    · exact LoadImage_ok_extracts dm nm _ faults kept fs fs1 habsent h
    · exact h
  unfold daemonManager.writeTarToDestinationDir at hw
  simp only at hw
  obtain ⟨n, hn, hnd⟩ :=
    extractFrom_ok_marker dm nm archive.ending archive.entries faults fs fs1 hw
  exact ⟨IsLoaded_of_not_dir dm nm fs1 n hn hnd,
    extractFrom_ok_contents dm nm archive.ending archive.entries faults fs fs1 hdistinct
      hmarker hfit hw⟩

/-- C2, amended, on the sample archive: over the empty install directory the extraction
succeeds, `IsLoaded` answers true and `cfg/app.conf` holds the six bytes `port=1`. -/
theorem writeTar_ok_installs_witness :
    emptyInstallDir (sampleManager.destinationDirMarkerPath driveNaming) = none ∧
      (sampleManager.writeTarToDestinationDir driveNaming (.ok archiveConfig) []
          emptyInstallDir).1 = .returned none ∧
      (sampleManager.IsLoaded driveNaming (osStat
          (sampleManager.writeTarToDestinationDir driveNaming (.ok archiveConfig) []
            emptyInstallDir).2) = (true, none) ∧
        ∀ e ∈ archiveConfig.entries, e.header.Typeflag = Typeflag.TypeReg →
          ∃ mode,
            (sampleManager.writeTarToDestinationDir driveNaming (.ok archiveConfig) []
                emptyInstallDir).2 (sampleManager.targetPath driveNaming e) =
              some (Node.file mode e.body)) :=
  have habsent :
      emptyInstallDir (sampleManager.destinationDirMarkerPath driveNaming) = none := by
    decide
  ⟨habsent, by decide,
    writeTar_ok_installs sampleManager driveNaming archiveConfig [] (fun _ => false)
      emptyInstallDir
      (sampleManager.writeTarToDestinationDir driveNaming (.ok archiveConfig) []
        emptyInstallDir).2
      habsent (by decide) (by decide) (by decide)
      (Or.inr (Prod.ext (by decide) rfl))⟩

end DaemonManager
